import Mathlib

/-!
# Verification of the point-in-time data recovery subsystem

Shallow embedding of `src/utils/recovery/data-recovery.ts`
(`DataRecoveryManager`), the relevant parts of `src/database/schema.ts`
(`RecruitmentDatabase`) and of the audit sink
(`SecurityManager.logAudit` in `src/utils/permissions/advanced-conditions.ts`).

Modelling conventions:
* Records stored in the document store (Dexie/IndexedDB) are modelled by the
  JSON-like value type `JVal`.  IndexedDB stores structured clones, so `Date`
  values survive storage; they are modelled by the `JVal.date` constructor
  carrying the millisecond clock value.
* `JSON.stringify` / `JSON.parse` (the placeholder bodies of `encryptData` /
  `decryptData`) are modelled by an executable serializer and a fuel-based
  parser over the integer/string/bool/null/array/object fragment actually
  produced by the repository's data model.  `Date.prototype.toJSON` is
  modelled by the injective rendering `dateISO`.
* Asynchronous effects are modelled by explicit state passing over `St`.
  Store-level I/O failures are modelled by fault injection: every fallible
  write primitive is numbered by `St.ctr`, and the primitive throws exactly
  when its number is listed in `St.faults`.  Reads are modelled as reliable.
* `uuidv4()` and `new Date()` are modelled by the deterministic supplies
  `St.nextId` / `St.now` (external nondeterminism made explicit).
* The ghost field `St.trace` records every store mutation and audit emission,
  in execution order; it is used to state temporal properties.
-/

/-- JSON-like runtime values (the fragment produced by this repository's data
model): `date` models a live JavaScript `Date` (structured-clone survives
storage; `JSON.stringify` serializes it via `toJSON` to an ISO string). -/
inductive JVal where
  | null : JVal
  | bool : Bool → JVal
  | num : Int → JVal
  | str : String → JVal
  | date : Nat → JVal
  | arr : List JVal → JVal
  | obj : List (String × JVal) → JVal

mutual
def decEqJVal : (a b : JVal) → Decidable (a = b)
  | JVal.null, JVal.null => isTrue rfl
  | JVal.bool x, JVal.bool y =>
    match decEq x y with
    | isTrue h => isTrue (congrArg JVal.bool h)
    | isFalse h => isFalse (fun e => h (JVal.bool.inj e))
  | JVal.num x, JVal.num y =>
    match decEq x y with
    | isTrue h => isTrue (congrArg JVal.num h)
    | isFalse h => isFalse (fun e => h (JVal.num.inj e))
  | JVal.str x, JVal.str y =>
    match decEq x y with
    | isTrue h => isTrue (congrArg JVal.str h)
    | isFalse h => isFalse (fun e => h (JVal.str.inj e))
  | JVal.date x, JVal.date y =>
    match decEq x y with
    | isTrue h => isTrue (congrArg JVal.date h)
    | isFalse h => isFalse (fun e => h (JVal.date.inj e))
  | JVal.arr xs, JVal.arr ys =>
    match decEqJValList xs ys with
    | isTrue h => isTrue (congrArg JVal.arr h)
    | isFalse h => isFalse (fun e => h (JVal.arr.inj e))
  | JVal.obj xs, JVal.obj ys =>
    match decEqJValFields xs ys with
    | isTrue h => isTrue (congrArg JVal.obj h)
    | isFalse h => isFalse (fun e => h (JVal.obj.inj e))
  | JVal.null, JVal.bool _ => isFalse (fun h => JVal.noConfusion h)
  | JVal.null, JVal.num _ => isFalse (fun h => JVal.noConfusion h)
  | JVal.null, JVal.str _ => isFalse (fun h => JVal.noConfusion h)
  | JVal.null, JVal.date _ => isFalse (fun h => JVal.noConfusion h)
  | JVal.null, JVal.arr _ => isFalse (fun h => JVal.noConfusion h)
  | JVal.null, JVal.obj _ => isFalse (fun h => JVal.noConfusion h)
  | JVal.bool _, JVal.null => isFalse (fun h => JVal.noConfusion h)
  | JVal.bool _, JVal.num _ => isFalse (fun h => JVal.noConfusion h)
  | JVal.bool _, JVal.str _ => isFalse (fun h => JVal.noConfusion h)
  | JVal.bool _, JVal.date _ => isFalse (fun h => JVal.noConfusion h)
  | JVal.bool _, JVal.arr _ => isFalse (fun h => JVal.noConfusion h)
  | JVal.bool _, JVal.obj _ => isFalse (fun h => JVal.noConfusion h)
  | JVal.num _, JVal.null => isFalse (fun h => JVal.noConfusion h)
  | JVal.num _, JVal.bool _ => isFalse (fun h => JVal.noConfusion h)
  | JVal.num _, JVal.str _ => isFalse (fun h => JVal.noConfusion h)
  | JVal.num _, JVal.date _ => isFalse (fun h => JVal.noConfusion h)
  | JVal.num _, JVal.arr _ => isFalse (fun h => JVal.noConfusion h)
  | JVal.num _, JVal.obj _ => isFalse (fun h => JVal.noConfusion h)
  | JVal.str _, JVal.null => isFalse (fun h => JVal.noConfusion h)
  | JVal.str _, JVal.bool _ => isFalse (fun h => JVal.noConfusion h)
  | JVal.str _, JVal.num _ => isFalse (fun h => JVal.noConfusion h)
  | JVal.str _, JVal.date _ => isFalse (fun h => JVal.noConfusion h)
  | JVal.str _, JVal.arr _ => isFalse (fun h => JVal.noConfusion h)
  | JVal.str _, JVal.obj _ => isFalse (fun h => JVal.noConfusion h)
  | JVal.date _, JVal.null => isFalse (fun h => JVal.noConfusion h)
  | JVal.date _, JVal.bool _ => isFalse (fun h => JVal.noConfusion h)
  | JVal.date _, JVal.num _ => isFalse (fun h => JVal.noConfusion h)
  | JVal.date _, JVal.str _ => isFalse (fun h => JVal.noConfusion h)
  | JVal.date _, JVal.arr _ => isFalse (fun h => JVal.noConfusion h)
  | JVal.date _, JVal.obj _ => isFalse (fun h => JVal.noConfusion h)
  | JVal.arr _, JVal.null => isFalse (fun h => JVal.noConfusion h)
  | JVal.arr _, JVal.bool _ => isFalse (fun h => JVal.noConfusion h)
  | JVal.arr _, JVal.num _ => isFalse (fun h => JVal.noConfusion h)
  | JVal.arr _, JVal.str _ => isFalse (fun h => JVal.noConfusion h)
  | JVal.arr _, JVal.date _ => isFalse (fun h => JVal.noConfusion h)
  | JVal.arr _, JVal.obj _ => isFalse (fun h => JVal.noConfusion h)
  | JVal.obj _, JVal.null => isFalse (fun h => JVal.noConfusion h)
  | JVal.obj _, JVal.bool _ => isFalse (fun h => JVal.noConfusion h)
  | JVal.obj _, JVal.num _ => isFalse (fun h => JVal.noConfusion h)
  | JVal.obj _, JVal.str _ => isFalse (fun h => JVal.noConfusion h)
  | JVal.obj _, JVal.date _ => isFalse (fun h => JVal.noConfusion h)
  | JVal.obj _, JVal.arr _ => isFalse (fun h => JVal.noConfusion h)

def decEqJValList : (xs ys : List JVal) → Decidable (xs = ys)
  | [], [] => isTrue rfl
  | [], _ :: _ => isFalse (fun h => List.noConfusion h)
  | _ :: _, [] => isFalse (fun h => List.noConfusion h)
  | x :: xs, y :: ys =>
    match decEqJVal x y with
    | isFalse h => isFalse (fun e => h (List.head_eq_of_cons_eq e))
    | isTrue h1 =>
      match decEqJValList xs ys with
      | isTrue h2 => isTrue (by rw [h1, h2])
      | isFalse h2 => isFalse (fun e => h2 (List.tail_eq_of_cons_eq e))

def decEqJValFields : (xs ys : List (String × JVal)) → Decidable (xs = ys)
  | [], [] => isTrue rfl
  | [], _ :: _ => isFalse (fun h => List.noConfusion h)
  | _ :: _, [] => isFalse (fun h => List.noConfusion h)
  | (k, v) :: xs, (l, w) :: ys =>
    match decEq k l with
    | isFalse h =>
      isFalse (fun e => h (congrArg Prod.fst (List.head_eq_of_cons_eq e)))
    | isTrue hk =>
      match decEqJVal v w with
      | isFalse h =>
        isFalse (fun e => h (congrArg Prod.snd (List.head_eq_of_cons_eq e)))
      | isTrue hv =>
        match decEqJValFields xs ys with
        | isTrue h2 => isTrue (by rw [hk, hv, h2])
        | isFalse h2 => isFalse (fun e => h2 (List.tail_eq_of_cons_eq e))
end

instance : DecidableEq JVal := decEqJVal

/-- Models `Date.prototype.toJSON` (the ISO-8601 rendering of a Date). -/
def dateISO (t : Nat) : String :=
  "1970-01-01T00:00:00." ++ toString t ++ "Z"

def lbraceChar : Char := Char.ofNat 123

def rbraceChar : Char := Char.ofNat 125

/-- JSON string escaping (the characters this data model can contain). -/
def escapeChar (c : Char) : String :=
  if c = '"' then "\\\""
  else if c = '\\' then "\\\\"
  else String.singleton c

def escapeString (s : String) : String :=
  String.join (s.toList.map escapeChar)

def quoteString (s : String) : String :=
  "\"" ++ escapeString s ++ "\""

mutual
/-- Models `JSON.stringify` on `JVal` (no spacing, insertion-ordered keys,
`Date` via `toJSON`). -/
def stringify : JVal → String
  | JVal.null => "null"
  | JVal.bool true => "true"
  | JVal.bool false => "false"
  | JVal.num n => toString n
  | JVal.str s => quoteString s
  | JVal.date t => quoteString (dateISO t)
  | JVal.arr xs => "[" ++ stringifyArr xs ++ "]"
  | JVal.obj fs => "\x7b" ++ stringifyObj fs ++ "\x7d"

def stringifyArr : List JVal → String
  | [] => ""
  | [x] => stringify x
  | x :: y :: xs => stringify x ++ "," ++ stringifyArr (y :: xs)

def stringifyObj : List (String × JVal) → String
  | [] => ""
  | [(k, v)] => quoteString k ++ ":" ++ stringify v
  | (k, v) :: f :: fs =>
      quoteString k ++ ":" ++ stringify v ++ "," ++ stringifyObj (f :: fs)
end

def isWs (c : Char) : Bool :=
  c = ' ' ∨ c = '\n' ∨ c = '\t' ∨ c = '\r'

def skipWs : List Char → List Char
  | [] => []
  | c :: cs => if isWs c then skipWs cs else c :: cs

/-- Parse the body of a JSON string literal (after the opening quote), up to
and including the closing quote.  Handles the `\"` and `\\` escapes (the ones
`stringify` emits). -/
def parseStringBody : Nat → List Char → Option (String × List Char)
  | 0, _ => none
  | _, [] => none
  | fuel + 1, c :: cs =>
    if c = '"' then some ("", cs)
    else if c = '\\' then
      match cs with
      | [] => none
      | e :: cs' =>
        if e = '"' ∨ e = '\\' then
          match parseStringBody fuel cs' with
          | some (s, rest) => some (String.singleton e ++ s, rest)
          | none => none
        else none
    else
      match parseStringBody fuel cs with
      | some (s, rest) => some (String.singleton c ++ s, rest)
      | none => none

def digitVal (c : Char) : Nat := c.toNat - 48

def parseDigits : List Char → Nat → List Char → (Nat × List Char)
  | [], acc, seen => (acc, seen)
  | c :: cs, acc, _ =>
    if c.isDigit then parseDigits cs (acc * 10 + digitVal c) (c :: cs) else (acc, c :: cs)

/-- Parse an (optionally negated) integer literal.  The repository's payloads
contain only integral numbers; fractions/exponents are out of the modelled
fragment and fail the parse. -/
def parseNumber : List Char → Option (Int × List Char)
  | [] => none
  | c :: cs =>
    if c = '-' then
      match cs with
      | [] => none
      | d :: _ =>
        if d.isDigit then
          match parseDigits cs 0 cs with
          | (n, rest) => some (-(n : Int), rest)
        else none
    else if c.isDigit then
      match parseDigits (c :: cs) 0 (c :: cs) with
      | (n, rest) => some ((n : Int), rest)
    else none

def startsWith (pre : List Char) (l : List Char) : Option (List Char) :=
  match pre, l with
  | [], rest => some rest
  | _ :: _, [] => none
  | p :: ps, c :: cs => if p = c then startsWith ps cs else none

mutual
/-- Fuel-based recursive-descent parser modelling `JSON.parse` on the
fragment of JSON this repository produces. -/
def parseVal : Nat → List Char → Option (JVal × List Char)
  | 0, _ => none
  | fuel + 1, l =>
    match skipWs l with
    | [] => none
    | c :: cs =>
      if c = '"' then
        match parseStringBody (fuel + 1) cs with
        | some (s, rest) => some (JVal.str s, rest)
        | none => none
      else if c = '[' then
        match skipWs cs with
        | ']' :: rest => some (JVal.arr [], rest)
        | cs' =>
          match parseArrItems fuel cs' with
          | some (xs, rest) => some (JVal.arr xs, rest)
          | none => none
      else if c = lbraceChar then
        match skipWs cs with
        | d :: rest =>
          if d = rbraceChar then some (JVal.obj [], rest)
          else
            match parseObjItems fuel (d :: rest) with
            | some (fs, rest') => some (JVal.obj fs, rest')
            | none => none
        | [] => none
      else
        match startsWith ['n', 'u', 'l', 'l'] (c :: cs) with
        | some rest => some (JVal.null, rest)
        | none =>
          match startsWith ['t', 'r', 'u', 'e'] (c :: cs) with
          | some rest => some (JVal.bool true, rest)
          | none =>
            match startsWith ['f', 'a', 'l', 's', 'e'] (c :: cs) with
            | some rest => some (JVal.bool false, rest)
            | none =>
              match parseNumber (c :: cs) with
              | some (n, rest) => some (JVal.num n, rest)
              | none => none

def parseArrItems : Nat → List Char → Option (List JVal × List Char)
  | 0, _ => none
  | fuel + 1, l =>
    match parseVal fuel l with
    | none => none
    | some (v, rest) =>
      match skipWs rest with
      | ',' :: rest' =>
        match parseArrItems fuel rest' with
        | some (vs, rest'') => some (v :: vs, rest'')
        | none => none
      | ']' :: rest' => some ([v], rest')
      | _ => none

def parseObjItems : Nat → List Char → Option (List (String × JVal) × List Char)
  | 0, _ => none
  | fuel + 1, l =>
    match skipWs l with
    | '"' :: cs =>
      match parseStringBody (fuel + 1) cs with
      | none => none
      | some (k, rest) =>
        match skipWs rest with
        | ':' :: rest' =>
          match parseVal fuel rest' with
          | none => none
          | some (v, rest'') =>
            match skipWs rest'' with
            | ',' :: rest3 =>
              match parseObjItems fuel rest3 with
              | some (fs, rest4) => some ((k, v) :: fs, rest4)
              | none => none
            | d :: rest3 =>
              if d = rbraceChar then some ([(k, v)], rest3) else none
            | [] => none
        | _ => none
    | _ => none
end

/-- Models `JSON.parse` of a whole string (`none` = the `SyntaxError` throw). -/
def jsonParse (s : String) : Option JVal :=
  match parseVal (s.length + 1) s.toList with
  | some (v, rest) => if skipWs rest = [] then some v else none
  | none => none

example : jsonParse "\x7b\"jobs\":[\x7b\"id\":1\x7d]\x7d" =
    some (JVal.obj [("jobs", JVal.arr [JVal.obj [("id", JVal.num 1)]])]) := by decide

example : stringify (JVal.obj [("a", JVal.arr [JVal.num (-2), JVal.date 5])]) =
    "\x7b\"a\":[-2,\"1970-01-01T00:00:00.5Z\"]\x7d" := by decide

/-! ## The collection store (Dexie database) -/

/-- The database: one entry per declared table (`RecruitmentDatabase` in
`src/database/schema.ts` declares the tables; their record contents are the
store's mutable state). -/
abbrev DB := List (String × List JVal)

def tableNames (db : DB) : List String := db.map Prod.fst

def hasTable (db : DB) (t : String) : Bool := (tableNames db).contains t

def getTable (db : DB) (t : String) : List JVal :=
  ((db.find? (fun p => p.1 == t)).map Prod.snd).getD []

def setTable (db : DB) (t : String) (recs : List JVal) : DB :=
  db.map (fun p => if p.1 = t then (p.1, recs) else p)

def addRecord (db : DB) (t : String) (r : JVal) : DB :=
  setTable db t (getTable db t ++ [r])

def getField (r : JVal) (k : String) : Option JVal :=
  match r with
  | JVal.obj fs => (fs.find? (fun f => f.1 == k)).map Prod.snd
  | _ => none

def setFieldList : List (String × JVal) → String → JVal → List (String × JVal)
  | [], k, v => [(k, v)]
  | (k', v') :: fs, k, v =>
    if k' = k then (k, v) :: fs else (k', v') :: setFieldList fs k v

def setField (r : JVal) (k : String) (v : JVal) : JVal :=
  match r with
  | JVal.obj fs => JVal.obj (setFieldList fs k v)
  | _ => r

def objKeys (d : JVal) : List String :=
  match d with
  | JVal.obj fs => fs.map Prod.fst
  | _ => []

def objFields (d : JVal) : List (String × JVal) :=
  match d with
  | JVal.obj fs => fs
  | _ => []

/-- Dexie `table.get(primaryKey)` on the catalog tables (primary key `id`). -/
def findRecord (db : DB) (t : String) (pid : String) : Option JVal :=
  (getTable db t).find? (fun r => decide (getField r "id" = some (JVal.str pid)))

/-- The table list declared by `RecruitmentDatabase` (`schema.ts`), in
declaration order. -/
def schemaTableNames : List String :=
  ["candidates", "jobs", "clients", "employees", "payroll", "analytics",
   "auditLogs", "sessions", "securityEvents", "recoveryPoints", "recoveryData",
   "roles", "backups"]

/-! ## Effect model -/

/-- Ghost trace of store mutations and audit emissions, in execution order. -/
inductive Ev where
  | addPoint : String → Ev
  | addData : String → Ev
  | updatePointStatus : String → String → Ev
  | audit : String → Ev
  | auditCleanup : Ev
  | clearTable : String → Ev
  | bulkAdd : String → Nat → Ev
  | notify : Ev
deriving DecidableEq

structure St where
  db : DB
  trace : List Ev
  faults : List Nat
  ctr : Nat
  nextId : Nat
  now : Nat
deriving DecidableEq

/-- Result of one asynchronous operation: a JS exception does not undo
already-performed store writes, so the error carries the post-state. -/
inductive RunResult (α : Type) where
  | ok : α → St → RunResult α
  | err : String → St → RunResult α
deriving DecidableEq

def RunResult.stateOf {α : Type} : RunResult α → St
  | RunResult.ok _ s => s
  | RunResult.err _ s => s

def RunResult.isOk {α : Type} : RunResult α → Bool
  | RunResult.ok _ _ => true
  | RunResult.err _ _ => false

/-- `uuidv4()` modelled as a deterministic fresh-name supply. -/
def freshUuid (s : St) : String × St :=
  ("uuid-" ++ toString s.nextId, { s with nextId := s.nextId + 1 })

/-- `new Date()` modelled as a strictly increasing millisecond clock. -/
def freshDate (s : St) : Nat × St :=
  (s.now, { s with now := s.now + 1 })

/-- A fallible store-write primitive: throws exactly when its sequence number
is in the injected fault set, otherwise applies the write and records the
trace event. -/
def prim (ev : Ev) (f : DB → DB) (s : St) : RunResult Unit :=
  if s.faults.contains s.ctr then
    RunResult.err "Database error" { s with ctr := s.ctr + 1 }
  else
    RunResult.ok () { s with ctr := s.ctr + 1, db := f s.db, trace := s.trace ++ [ev] }

/-! ## Integrity codec (the placeholder implementations in the source) -/

/-- `calculateChecksum` — the source body is `return 'checksum'; // Placeholder`. -/
def calculateChecksum (_data : JVal) : String := "checksum"

/-- `calculateSize` — the source body is `return 0; // Placeholder`. -/
def calculateSize (_data : JVal) : Nat := 0

/-- `encryptData` — the source body is `return JSON.stringify(data); // Placeholder`. -/
def encryptData (data : JVal) : String := stringify data

/-- `decryptData` — the source body is `return JSON.parse(encrypted); // Placeholder`. -/
def decryptData (encrypted : String) : Option JVal := jsonParse encrypted

/-! ## Audit sink (`SecurityManager.logAudit`) -/

def sensitiveFields : List String := ["password", "ssn", "bankAccount"]

def sanitizeSensitiveData (d : JVal) : JVal :=
  match d with
  | JVal.obj fs =>
    JVal.obj (fs.map (fun f =>
      if sensitiveFields.contains f.1 then (f.1, JVal.str "***REDACTED***") else f))
  | v => v

/-- `auditPolicy.retentionDays = 90`, in milliseconds. -/
def retentionMs : Nat := 90 * 24 * 60 * 60 * 1000

def mkAuditEntry (aid : String) (ts : Nat) (userId action resource : String)
    (details : JVal) (ip userAgent : String) : JVal :=
  JVal.obj [("id", JVal.str aid), ("timestamp", JVal.date ts),
    ("userId", JVal.str userId), ("action", JVal.str action),
    ("resource", JVal.str resource), ("details", sanitizeSensitiveData details),
    ("ip", JVal.str ip), ("userAgent", JVal.str userAgent)]

/-- The record the audit-log retention filter keeps at a given cutoff. -/
def keepAfter (cutoff : Nat) (r : JVal) : Bool :=
  match getField r "timestamp" with
  | some (JVal.date t) => decide (cutoff ≤ t)
  | _ => true

/-- `cleanupOldAuditLogs`: delete audit entries whose timestamp is below the
retention cutoff. -/
def cleanupOldAuditLogs (db : DB) (cutoff : Nat) : DB :=
  setTable db "auditLogs" ((getTable db "auditLogs").filter (keepAfter cutoff))

/-- `SecurityManager.logAudit`: build the entry, `await db.auditLogs.add(entry)`,
then `await this.cleanupOldAuditLogs()` — which takes its own `new Date()` for
the retention cutoff and deletes the expired entries.  Two separately awaited,
separately fallible store writes; any failure of either is caught and
re-raised as `Audit logging failed` (a failure between them leaves the
appended entry in place). -/
def logAudit (userId action resource : String) (details : JVal)
    (ip userAgent : String) (s : St) : RunResult Unit :=
  let (aid, s1) := freshUuid s
  let (ts, s2) := freshDate s1
  let entry := mkAuditEntry aid ts userId action resource details ip userAgent
  match prim (Ev.audit action) (fun db => addRecord db "auditLogs" entry) s2 with
  | RunResult.err _ s3 => RunResult.err "Audit logging failed" s3
  | RunResult.ok () s3 =>
    let (cts, s4) := freshDate s3
    match prim Ev.auditCleanup
        (fun db => cleanupOldAuditLogs db (cts - retentionMs)) s4 with
    | RunResult.err _ s5 => RunResult.err "Audit logging failed" s5
    | RunResult.ok () s5 => RunResult.ok () s5

/-! ## DataRecoveryManager -/

structure RecoveryOptions where
  tables : Option (List String)
  validateData : Bool
  preserveAuditTrail : Bool
  notifyUsers : Bool
deriving DecidableEq

def defaultOptions : RecoveryOptions := ⟨none, false, false, false⟩

/-- The option set as it appears inside the restore audit `details` (absent
option keys rendered explicitly). -/
def optionsJ (o : RecoveryOptions) : JVal :=
  JVal.obj [("tables", match o.tables with
              | some ts => JVal.arr (ts.map JVal.str)
              | none => JVal.null),
    ("validateData", JVal.bool o.validateData),
    ("preserveAuditTrail", JVal.bool o.preserveAuditTrail),
    ("notifyUsers", JVal.bool o.notifyUsers)]

def getAllTables (db : DB) : List String := tableNames db

def exportData (db : DB) (tables : List String) : JVal :=
  JVal.obj (tables.map (fun t => (t, JVal.arr (getTable db t))))

def getRecordCounts (db : DB) (tables : List String) : JVal :=
  JVal.obj (tables.map (fun t => (t, JVal.num ((getTable db t).length : Int))))

def mkRecoveryPoint (pid : String) (ts : Nat) (type description : String)
    (size : Nat) (checksum : String) (tables : List String) (counts : JVal) : JVal :=
  JVal.obj [("id", JVal.str pid), ("timestamp", JVal.date ts),
    ("type", JVal.str type), ("description", JVal.str description),
    ("size", JVal.num (size : Int)), ("checksum", JVal.str checksum),
    ("status", JVal.str "pending"),
    ("metadata", JVal.obj [("version", JVal.str "1.0"),
      ("tables", JVal.arr (tables.map JVal.str)), ("recordCounts", counts)])]

/-- Dexie `recoveryPoints.update(id, changes)` — rewrite the `status` field of
the record whose primary key is `pid`. -/
def updatePointStatusDb (db : DB) (pid status : String) : DB :=
  setTable db "recoveryPoints"
    ((getTable db "recoveryPoints").map (fun r =>
      if getField r "id" = some (JVal.str pid) then setField r "status" (JVal.str status) else r))

/-- The `try` body of `DataRecoveryManager.createRecoveryPoint`. -/
def createRecoveryPointBody (description type : String) (s : St) : RunResult JVal :=
  let tables := getAllTables s.db
  let data := exportData s.db tables
  let checksum := calculateChecksum data
  let size := calculateSize data
  let (pid, s1) := freshUuid s
  let (ts, s2) := freshDate s1
  let counts := getRecordCounts s2.db tables
  let point := mkRecoveryPoint pid ts type description size checksum tables counts
  match prim (Ev.addPoint pid) (fun db => addRecord db "recoveryPoints" point) s2 with
  | RunResult.err e s3 => RunResult.err e s3
  | RunResult.ok () s3 =>
    match prim (Ev.addData pid)
        (fun db => addRecord db "recoveryData"
          (JVal.obj [("id", JVal.str pid), ("data", JVal.str (encryptData data))])) s3 with
    | RunResult.err e s4 => RunResult.err e s4
    | RunResult.ok () s4 =>
      match prim (Ev.updatePointStatus pid "completed")
          (fun db => updatePointStatusDb db pid "completed") s4 with
      | RunResult.err e s5 => RunResult.err e s5
      | RunResult.ok () s5 =>
        match logAudit "system" "create_recovery_point" "recovery"
            (JVal.obj [("recoveryPointId", JVal.str pid), ("type", JVal.str type),
              ("description", JVal.str description)]) "internal" "system" s5 with
        | RunResult.err e s6 => RunResult.err e s6
        | RunResult.ok () s6 => RunResult.ok point s6

/-- `DataRecoveryManager.createRecoveryPoint` (the `catch` wraps any error). -/
def createRecoveryPoint (description type : String) (s : St) : RunResult JVal :=
  match createRecoveryPointBody description type s with
  | RunResult.ok p s' => RunResult.ok p s'
  | RunResult.err e s' => RunResult.err ("Failed to create recovery point: " ++ e) s'

/-- `createSnapshot(description)` — the TS signature defaults `type` to
`'manual'`. -/
def createSnapshot (description : String) : St → RunResult JVal :=
  createRecoveryPoint description "manual"

def pointTs (r : JVal) : Nat :=
  match getField r "timestamp" with
  | some (JVal.date t) => t
  | _ => 0

def insertByTsDesc (r : JVal) : List JVal → List JVal
  | [] => [r]
  | x :: xs => if pointTs x < pointTs r then r :: x :: xs else x :: insertByTsDesc r xs

def sortByTsDesc : List JVal → List JVal
  | [] => []
  | x :: xs => insertByTsDesc x (sortByTsDesc xs)

/-- `listRecoveryPoints` — `orderBy('timestamp').reverse().toArray()`. -/
def listRecoveryPoints (s : St) : List JVal :=
  sortByTsDesc (getTable s.db "recoveryPoints")

structure ValidationResult where
  table : String
  valid : Bool
  errors : List String
deriving DecidableEq

/-- `validateRecoveryData` — one result per payload table; a record failing
the external validator makes the whole table invalid (the `catch` branch). -/
def validateRecoveryData (validator : String → JVal → Bool) (data : JVal) :
    List ValidationResult :=
  (objFields data).map (fun f =>
    match f.2 with
    | JVal.arr recs =>
      if recs.all (validator f.1) then ⟨f.1, true, []⟩
      else ⟨f.1, false, ["Validation failed"]⟩
    | _ => ⟨f.1, false, ["records is not iterable"]⟩)

/-- Steps 1–5 of `restoreFromPoint` — the pure (read-only) phase: catalog
lookups, decryption, the integrity comparison and optional validation. -/
def restoreChecks (pid : String) (opts : RecoveryOptions)
    (validator : String → JVal → Bool) (db : DB) : Except String JVal :=
  match findRecord db "recoveryPoints" pid with
  | none => Except.error "Recovery point not found"
  | some point =>
    match findRecord db "recoveryData" pid with
    | none => Except.error "Recovery data not found"
    | some rd =>
      match getField rd "data" with
      | some (JVal.str c) =>
        match decryptData c with
        | none => Except.error "Unexpected token in JSON"
        | some data =>
          if getField point "checksum" = some (JVal.str (calculateChecksum data)) then
            if opts.validateData then
              let invalid := (validateRecoveryData validator data).filter (fun r => !r.valid)
              if invalid.isEmpty then Except.ok data
              else Except.error ("Data validation failed for tables: " ++
                String.intercalate ", " (invalid.map ValidationResult.table))
            else Except.ok data
          else Except.error "Data integrity check failed"
      | _ => Except.error "Unexpected token in JSON"

/-- `options.tables || Object.keys(data)` — target set of the write-back. -/
def restoreTargets (opts : RecoveryOptions) (data : JVal) : List String :=
  match opts.tables with
  | some ts => ts
  | none => objKeys data

/-- The body of `performRestore`'s transaction: per target table, unless the
audit trail is preserved and the table is `auditLogs`, clear it and bulk-insert
the restored records. -/
def restoreLoop (data : JVal) (opts : RecoveryOptions) :
    List String → St → RunResult Unit
  | [], s => RunResult.ok () s
  | t :: rest, s =>
    if opts.preserveAuditTrail ∧ t = "auditLogs" then restoreLoop data opts rest s
    else
      if hasTable s.db t then
        match prim (Ev.clearTable t) (fun db => setTable db t []) s with
        | RunResult.err e s1 => RunResult.err e s1
        | RunResult.ok () s1 =>
          match getField data t with
          | some (JVal.arr recs) =>
            match prim (Ev.bulkAdd t recs.length)
                (fun db => setTable db t (getTable db t ++ recs)) s1 with
            | RunResult.err e s2 => RunResult.err e s2
            | RunResult.ok () s2 => restoreLoop data opts rest s2
          | _ => RunResult.err "bulkAdd: invalid argument" s1
      else RunResult.err ("Table " ++ t ++ " does not exist") s

/-- `performRestore`: the transactional write-back (rolled back as a whole on
failure) followed by the optional user notification. -/
def performRestore (data : JVal) (opts : RecoveryOptions) (s : St) : RunResult Unit :=
  let tables := restoreTargets opts data
  match restoreLoop data opts tables s with
  | RunResult.err e s1 => RunResult.err e { s1 with db := s.db }
  | RunResult.ok () s1 =>
    if opts.notifyUsers then RunResult.ok () { s1 with trace := s1.trace ++ [Ev.notify] }
    else RunResult.ok () s1

def autoSnapshotDescription : String := "Auto-snapshot before restore"

/-- The `try` body of `restoreFromPoint`: checks, pre-restore safety snapshot,
write-back, audit. -/
def restoreBody (pid : String) (opts : RecoveryOptions)
    (validator : String → JVal → Bool) (s : St) : RunResult Unit :=
  match restoreChecks pid opts validator s.db with
  | Except.error e => RunResult.err e s
  | Except.ok data =>
    match createRecoveryPoint autoSnapshotDescription "automatic" s with
    | RunResult.err e s1 => RunResult.err e s1
    | RunResult.ok snap s1 =>
      match performRestore data opts s1 with
      | RunResult.err e s2 => RunResult.err e s2
      | RunResult.ok () s2 =>
        logAudit "system" "restore_from_point" "recovery"
          (JVal.obj [("recoveryPointId", JVal.str pid), ("options", optionsJ opts),
            ("preRestoreSnapshotId", (getField snap "id").getD JVal.null)])
          "internal" "system" s2

/-- `DataRecoveryManager.restoreFromPoint` (the `catch` wraps any error). -/
def restoreFromPoint (pid : String) (opts : RecoveryOptions)
    (validator : String → JVal → Bool) (s : St) : RunResult Unit :=
  match restoreBody pid opts validator s with
  | RunResult.ok () s' => RunResult.ok () s'
  | RunResult.err e s' => RunResult.err ("Failed to restore from recovery point: " ++ e) s'

/-! ## RecruitmentDatabase snapshot operations (`schema.ts`) -/

def recId (r : JVal) : Int :=
  match getField r "id" with
  | some (JVal.num n) => n
  | _ => 0

/-- Dexie `'++id'` auto-increment key generation. -/
def nextAutoId (recs : List JVal) : Int :=
  (recs.foldl (fun m r => max m (recId r)) 0) + 1

/-- `RecruitmentDatabase.createRecoveryPoint`. -/
def schemaCreateRecoveryPoint (s : St) : RunResult JVal :=
  let (ts, s1) := freshDate s
  let nid := nextAutoId (getTable s1.db "recoveryPoints")
  let stored := JVal.obj [("timestamp", JVal.date ts), ("type", JVal.str "full"),
    ("status", JVal.str "pending"), ("id", JVal.num nid)]
  match prim (Ev.addPoint (toString nid)) (fun db => addRecord db "recoveryPoints" stored) s1 with
  | RunResult.err e s2 => RunResult.err e s2
  | RunResult.ok () s2 => RunResult.ok stored s2

def backupPoint (ts : Nat) (status : String) (nid : Int) : JVal :=
  JVal.obj [("timestamp", JVal.date ts), ("type", JVal.str "full"),
    ("status", JVal.str status), ("size", JVal.num 0),
    ("path", JVal.str ("backup_" ++ dateISO ts)), ("id", JVal.num nid)]

/-- `RecruitmentDatabase.backup` — status is flipped to `completed` before the
`add`; on failure the `catch` stores a `failed` copy and re-raises. -/
def schemaBackup (s : St) : RunResult Unit :=
  let (ts, s1) := freshDate s
  let nid := nextAutoId (getTable s1.db "recoveryPoints")
  match prim (Ev.addPoint (toString nid))
      (fun db => addRecord db "recoveryPoints" (backupPoint ts "completed" nid)) s1 with
  | RunResult.ok () s2 => RunResult.ok () s2
  | RunResult.err e s2 =>
    let nid2 := nextAutoId (getTable s2.db "recoveryPoints")
    match prim (Ev.addPoint (toString nid2))
        (fun db => addRecord db "recoveryPoints" (backupPoint ts "failed" nid2)) s2 with
    | RunResult.ok () s3 => RunResult.err e s3
    | RunResult.err e2 s3 => RunResult.err e2 s3

/-! ## Derived abbreviations and concrete fixtures -/

def RunResult.valOf : RunResult JVal → JVal
  | RunResult.ok p _ => p
  | RunResult.err _ _ => JVal.null

/-- An external schema validator that accepts everything (`validateData` of
`src/utils/validation` is an external collaborator of this core). -/
def trueValidator : String → JVal → Bool := fun _ _ => true

/-- The recovery point a successful `createRecoveryPoint` call starting in
state `s` builds (before persistence; `status` is `pending`). -/
def newPointOf (s : St) (type description : String) : JVal :=
  mkRecoveryPoint ("uuid-" ++ toString s.nextId) s.now type description
    (calculateSize (exportData s.db (getAllTables s.db)))
    (calculateChecksum (exportData s.db (getAllTables s.db)))
    (getAllTables s.db) (getRecordCounts s.db (getAllTables s.db))

/-- The `recoveryData` row a successful `createRecoveryPoint` call persists. -/
def dataRecordOf (s : St) : JVal :=
  JVal.obj [("id", JVal.str ("uuid-" ++ toString s.nextId)),
    ("data", JVal.str (encryptData (exportData s.db (getAllTables s.db))))]

def createAuditDetails (pid ty desc : String) : JVal :=
  JVal.obj [("recoveryPointId", JVal.str pid), ("type", JVal.str ty),
    ("description", JVal.str desc)]

/-- The database a successful `createRecoveryPoint` call leaves behind. -/
def snapshotDbOf (s : St) (ty desc : String) : DB :=
  cleanupOldAuditLogs
    (addRecord
      (updatePointStatusDb
        (addRecord (addRecord s.db "recoveryPoints" (newPointOf s ty desc))
          "recoveryData" (dataRecordOf s))
        ("uuid-" ++ toString s.nextId) "completed")
      "auditLogs"
      (mkAuditEntry ("uuid-" ++ toString (s.nextId + 1)) (s.now + 1) "system"
        "create_recovery_point" "recovery"
        (createAuditDetails ("uuid-" ++ toString s.nextId) ty desc)
        "internal" "system"))
    ((s.now + 2) - retentionMs)

/-- Fixture: a live store holding one completed recovery point `rp1` whose
stored ciphertext has had one byte mutated (the payload was created over
`jobs = [{id: 1}]`, its ciphertext `{"jobs":[{"id":1}]}` was tampered to
`{"jobs":[{"id":2}]}`). -/
def tamperedDB : DB :=
  [("jobs", [JVal.obj [("id", JVal.num 1)]]),
   ("auditLogs", []),
   ("recoveryPoints",
     [mkRecoveryPoint "rp1" 0 "manual" "snap" 0 "checksum" ["jobs"]
       (JVal.obj [("jobs", JVal.num 1)])]),
   ("recoveryData",
     [JVal.obj [("id", JVal.str "rp1"),
       ("data", JVal.str "\x7b\"jobs\":[\x7b\"id\":2\x7d]\x7d")]])]

def tamperedSt : St := ⟨tamperedDB, [], [], 0, 0, 10⟩

/-- Fixture: the same store, except the stored checksum is mutated by one
byte (`checksum` → `chedksum`). -/
def badChecksumDB : DB :=
  [("jobs", [JVal.obj [("id", JVal.num 1)]]),
   ("auditLogs", []),
   ("recoveryPoints",
     [mkRecoveryPoint "rp1" 0 "manual" "snap" 0 "chedksum" ["jobs"]
       (JVal.obj [("jobs", JVal.num 1)])]),
   ("recoveryData",
     [JVal.obj [("id", JVal.str "rp1"),
       ("data", JVal.str "\x7b\"jobs\":[\x7b\"id\":1\x7d]\x7d")]])]

def badChecksumSt : St := ⟨badChecksumDB, [], [], 0, 0, 10⟩

/-- Fixture: a recovery point whose `status` is `failed` but whose data row
is intact. -/
def failedPointDB : DB :=
  [("jobs", [JVal.obj [("id", JVal.num 1)]]),
   ("auditLogs", []),
   ("recoveryPoints",
     [setField
       (mkRecoveryPoint "rp1" 0 "manual" "snap" 0 "checksum" ["jobs"]
         (JVal.obj [("jobs", JVal.num 1)]))
       "status" (JVal.str "failed")]),
   ("recoveryData",
     [JVal.obj [("id", JVal.str "rp1"),
       ("data", JVal.str "\x7b\"jobs\":[\x7b\"id\":9\x7d]\x7d")]])]

def failedPointSt : St := ⟨failedPointDB, [], [], 0, 0, 10⟩

/-- Fixture: an empty-but-declared store for snapshot-creation runs. -/
def plainDB : DB :=
  [("jobs", [JVal.obj [("id", JVal.num 1)]]),
   ("auditLogs", []),
   ("recoveryPoints", []),
   ("recoveryData", [])]

def plainSt : St := ⟨plainDB, [], [], 0, 0, 10⟩

/-- Same store with a fault injected at write primitive 1 — the
`recoveryData.add` that follows the successful `recoveryPoints.add`. -/
def faultyDataAddSt : St := ⟨plainDB, [], [1], 0, 0, 10⟩

/-- The tampered store with a fault injected at write primitive 1: the first
write of the pre-restore safety snapshot (`recoveryPoints.add`) succeeds and
its second write (`recoveryData.add`) throws. -/
def snapFaultSt : St := ⟨tamperedDB, [], [1], 0, 0, 10⟩

/-- The plain store with a fault injected at write primitive 0 — the very
first catalog write (`recoveryPoints.add`) throws. -/
def zeroFaultSt : St := ⟨plainDB, [], [0], 0, 0, 10⟩

/-- Fixture: a completed point whose payload carries different audit-log
records, for the `preserveAuditTrail` scenario. -/
def preserveDB : DB :=
  [("jobs", [JVal.obj [("id", JVal.num 1)]]),
   ("auditLogs", [JVal.obj [("id", JVal.str "a0"), ("timestamp", JVal.date 3)]]),
   ("recoveryPoints",
     [mkRecoveryPoint "rp1" 0 "manual" "snap" 0 "checksum" ["jobs", "auditLogs"]
       (JVal.obj [])]),
   ("recoveryData",
     [JVal.obj [("id", JVal.str "rp1"),
       ("data", JVal.str
         "\x7b\"jobs\":[\x7b\"id\":7\x7d],\"auditLogs\":[\x7b\"id\":\"zz\"\x7d]\x7d")]])]

def preserveSt : St := ⟨preserveDB, [], [], 0, 0, 10⟩

def preserveOpts : RecoveryOptions := ⟨none, false, true, false⟩

/-- The decrypted payload of `preserveDB`'s stored ciphertext. -/
def c7payload : JVal :=
  JVal.obj [("jobs", JVal.arr [JVal.obj [("id", JVal.num 7)]]),
    ("auditLogs", JVal.arr [JVal.obj [("id", JVal.str "zz")]])]

/-- Fixture: snapshot over `{candidates: [A,B], jobs: [J1]}`, live `jobs`
mutated to `[J2]`, for the selective-restore scenario. -/
def selectiveDB : DB :=
  [("candidates", [JVal.obj [("id", JVal.num 1)], JVal.obj [("id", JVal.num 2)]]),
   ("jobs", [JVal.obj [("id", JVal.num 12)]]),
   ("auditLogs", []),
   ("recoveryPoints",
     [mkRecoveryPoint "rp1" 0 "manual" "snap" 0 "checksum" ["candidates", "jobs"]
       (JVal.obj [])]),
   ("recoveryData",
     [JVal.obj [("id", JVal.str "rp1"),
       ("data", JVal.str
         "\x7b\"candidates\":[\x7b\"id\":1\x7d,\x7b\"id\":2\x7d],\"jobs\":[\x7b\"id\":11\x7d]\x7d")]])]

def selectiveSt : St := ⟨selectiveDB, [], [], 0, 0, 10⟩

def selectiveOpts : RecoveryOptions := ⟨some ["jobs"], false, false, false⟩

/-- Fixture: a store whose declared tables are exactly the
`RecruitmentDatabase` schema tables. -/
def schemaDB : DB := schemaTableNames.map (fun t => (t, []))

def schemaSt : St := ⟨schemaDB, [], [], 0, 0, 10⟩

/-- A payload with a `Date`-valued record field (e.g. `candidates` records
carry `hireDate`/`createdAt` dates per the schema). -/
def datePayload : JVal :=
  JVal.obj [("candidates", JVal.arr [JVal.obj [("hireDate", JVal.date 5)]])]

/-! ## Store algebra lemmas -/

theorem tableNames_setTable (db : DB) (t : String) (r : List JVal) :
    tableNames (setTable db t r) = tableNames db := by
  unfold tableNames setTable
  rw [List.map_map]
  have h : (Prod.fst ∘ fun p : String × List JVal =>
      if p.1 = t then (p.1, r) else p) = Prod.fst := by
    funext p
    by_cases hp : p.1 = t <;> simp [hp]
  rw [h]

theorem hasTable_setTable (db : DB) (t u : String) (r : List JVal) :
    hasTable (setTable db t r) u = hasTable db u := by
  unfold hasTable
  rw [tableNames_setTable]

theorem setTable_fun_fst (t : String) (r : List JVal) (p : String × List JVal) :
    ((fun p : String × List JVal => if p.1 = t then (p.1, r) else p) p).1 = p.1 := by
  by_cases hp : p.1 = t <;> simp [hp]

theorem find?_setTable (db : DB) (t u : String) (r : List JVal) :
    List.find? (fun p => p.1 == u) (setTable db t r) =
      Option.map (fun p : String × List JVal => if p.1 = t then (p.1, r) else p)
        (List.find? (fun p => p.1 == u) db) := by
  unfold setTable
  rw [List.find?_map]
  have h : ((fun p : String × List JVal => p.1 == u) ∘
      (fun p : String × List JVal => if p.1 = t then (p.1, r) else p)) =
      (fun p : String × List JVal => p.1 == u) := by
    funext p
    simp [Function.comp, setTable_fun_fst]
  rw [h]

theorem getTable_setTable_ne (db : DB) (t u : String) (r : List JVal)
    (h : u ≠ t) : getTable (setTable db t r) u = getTable db u := by
  unfold getTable
  rw [find?_setTable]
  cases hf : List.find? (fun p => p.1 == u) db with
  | none => rfl
  | some q =>
    have hq : q.1 = u := by simpa using List.find?_some hf
    have hqt : ¬q.1 = t := by rw [hq]; exact h
    simp [hqt]

theorem getTable_setTable_self (db : DB) (t : String) (r : List JVal)
    (h : hasTable db t = true) : getTable (setTable db t r) t = r := by
  unfold getTable
  rw [find?_setTable]
  have hsome : (List.find? (fun p : String × List JVal => p.1 == t) db).isSome = true := by
    rw [List.find?_isSome]
    unfold hasTable tableNames at h
    simp only [List.contains_eq_any_beq, List.any_eq_true, List.mem_map] at h
    obtain ⟨x, ⟨p, hp, hpx⟩, hx⟩ := h
    exact ⟨p, hp, by simp [hpx, by simpa using hx]⟩
  cases hf : List.find? (fun p : String × List JVal => p.1 == t) db with
  | none => rw [hf] at hsome; simp at hsome
  | some q =>
    have hq : q.1 = t := by simpa using List.find?_some hf
    simp [hq]

theorem getTable_addRecord_ne (db : DB) (t u : String) (r : JVal) (h : u ≠ t) :
    getTable (addRecord db t r) u = getTable db u :=
  getTable_setTable_ne db t u _ h

theorem getTable_addRecord_self (db : DB) (t : String) (r : JVal)
    (h : hasTable db t = true) :
    getTable (addRecord db t r) t = getTable db t ++ [r] :=
  getTable_setTable_self db t _ h

theorem hasTable_addRecord (db : DB) (t u : String) (r : JVal) :
    hasTable (addRecord db t r) u = hasTable db u :=
  hasTable_setTable db t u _

theorem getTable_updatePointStatusDb_ne (db : DB) (pid st : String) (u : String)
    (h : u ≠ "recoveryPoints") :
    getTable (updatePointStatusDb db pid st) u = getTable db u :=
  getTable_setTable_ne db _ u _ h

theorem getTable_updatePointStatusDb_self (db : DB) (pid st : String)
    (h : hasTable db "recoveryPoints" = true) :
    getTable (updatePointStatusDb db pid st) "recoveryPoints" =
      (getTable db "recoveryPoints").map (fun r =>
        if getField r "id" = some (JVal.str pid) then setField r "status" (JVal.str st) else r) :=
  getTable_setTable_self db _ _ h

theorem hasTable_updatePointStatusDb (db : DB) (pid st : String) (u : String) :
    hasTable (updatePointStatusDb db pid st) u = hasTable db u :=
  hasTable_setTable db _ u _

theorem getTable_cleanup_ne (db : DB) (c : Nat) (u : String)
    (h : u ≠ "auditLogs") :
    getTable (cleanupOldAuditLogs db c) u = getTable db u :=
  getTable_setTable_ne db _ u _ h

theorem getTable_cleanup_self (db : DB) (c : Nat)
    (h : hasTable db "auditLogs" = true) :
    getTable (cleanupOldAuditLogs db c) "auditLogs" =
      (getTable db "auditLogs").filter (keepAfter c) :=
  getTable_setTable_self db _ _ h

theorem hasTable_cleanup (db : DB) (c : Nat) (u : String) :
    hasTable (cleanupOldAuditLogs db c) u = hasTable db u :=
  hasTable_setTable db _ u _

theorem getField_setField_self (fs : List (String × JVal)) (k : String) (v : JVal) :
    getField (setField (JVal.obj fs) k v) k = some v := by
  induction fs with
  | nil => simp [setField, setFieldList, getField, List.find?]
  | cons f rest ih =>
    by_cases hk : f.1 = k
    · simp [setField, setFieldList, hk, getField, List.find?]
    · simp only [setField, setFieldList] at *
      rw [if_neg hk]
      simp only [getField, List.find?] at *
      rw [show (f.1 == k) = false by simp [hk]]
      exact ih

theorem getField_setField_ne (fs : List (String × JVal)) (k k' : String) (v : JVal)
    (h : k' ≠ k) :
    getField (setField (JVal.obj fs) k v) k' = getField (JVal.obj fs) k' := by
  induction fs with
  | nil =>
    simp only [setField, setFieldList, getField, List.find?]
    rw [show (k == k') = false by simp [Ne.symm h]]
  | cons f rest ih =>
    by_cases hk : f.1 = k
    · simp only [setField, setFieldList, if_pos hk, getField, List.find?]
      rw [show (k == k') = false by simp [Ne.symm h]]
      rw [show (f.1 == k') = false by simp [hk, Ne.symm h]]
    · simp only [setField, setFieldList, if_neg hk, getField, List.find?] at *
      by_cases hf : (f.1 == k') = true
      · rw [hf]
      · simp only [Bool.not_eq_true] at hf
        rw [hf]
        exact ih

/-! ## Primitive and audit-sink lemmas -/

theorem prim_ok_elim {ev : Ev} {f : DB → DB} {s s' : St}
    (h : prim ev f s = RunResult.ok () s') :
    s' = { s with ctr := s.ctr + 1, db := f s.db, trace := s.trace ++ [ev] } := by
  unfold prim at h
  split at h
  · exact absurd h (by simp)
  · exact (RunResult.ok.inj h).2.symm

theorem prim_err_elim {ev : Ev} {f : DB → DB} {s s' : St} {e : String}
    (h : prim ev f s = RunResult.err e s') :
    s' = { s with ctr := s.ctr + 1 } ∧ e = "Database error" := by
  unfold prim at h
  split at h
  · exact ⟨(RunResult.err.inj h).2.symm, (RunResult.err.inj h).1.symm⟩
  · exact absurd h (by simp)

theorem prim_nofault {ev : Ev} {f : DB → DB} {s : St} (h : s.faults = []) :
    prim ev f s = RunResult.ok ()
      { s with ctr := s.ctr + 1, db := f s.db, trace := s.trace ++ [ev] } := by
  unfold prim
  rw [h]
  rfl

theorem logAudit_ok_elim {u a r : String} {d : JVal} {ip ua : String} {s s' : St}
    (h : logAudit u a r d ip ua s = RunResult.ok () s') :
    s' = { s with
      db := cleanupOldAuditLogs
        (addRecord s.db "auditLogs"
          (mkAuditEntry ("uuid-" ++ toString s.nextId) s.now u a r d ip ua))
        ((s.now + 1) - retentionMs),
      trace := s.trace ++ [Ev.audit a, Ev.auditCleanup],
      ctr := s.ctr + 2, nextId := s.nextId + 1, now := s.now + 2 } := by
  unfold logAudit freshUuid freshDate at h
  simp only at h
  cases hp1 : prim (Ev.audit a)
      (fun db => addRecord db "auditLogs"
        (mkAuditEntry ("uuid-" ++ toString s.nextId) s.now u a r d ip ua))
      { s with nextId := s.nextId + 1, now := s.now + 1 } with
  | err e1 t1 => rw [hp1] at h; exact absurd h (by simp)
  | ok v1 t1 =>
  rw [hp1] at h
  simp only at h
  have ht1 := prim_ok_elim hp1
  cases hp2 : prim Ev.auditCleanup
      (fun db => cleanupOldAuditLogs db (t1.now - retentionMs))
      { t1 with now := t1.now + 1 } with
  | err e2 t2 => rw [hp2] at h; exact absurd h (by simp)
  | ok v2 t2 =>
  rw [hp2] at h
  have ht2 := prim_ok_elim hp2
  cases h
  rw [ht2, ht1]
  simp [List.append_assoc]

theorem logAudit_err_elim {u a r : String} {d : JVal} {ip ua : String} {s s' : St}
    {e : String} (h : logAudit u a r d ip ua s = RunResult.err e s') :
    e = "Audit logging failed" ∧
    (s' = { s with ctr := s.ctr + 1, nextId := s.nextId + 1, now := s.now + 1 } ∨
     s' = { s with
       db := addRecord s.db "auditLogs"
         (mkAuditEntry ("uuid-" ++ toString s.nextId) s.now u a r d ip ua),
       trace := s.trace ++ [Ev.audit a],
       ctr := s.ctr + 2, nextId := s.nextId + 1, now := s.now + 2 }) := by
  unfold logAudit freshUuid freshDate at h
  simp only at h
  cases hp1 : prim (Ev.audit a)
      (fun db => addRecord db "auditLogs"
        (mkAuditEntry ("uuid-" ++ toString s.nextId) s.now u a r d ip ua))
      { s with nextId := s.nextId + 1, now := s.now + 1 } with
  | err e1 t1 =>
    rw [hp1] at h
    simp only at h
    obtain ⟨rfl, rfl⟩ := RunResult.err.inj h
    obtain ⟨ht1, _⟩ := prim_err_elim hp1
    exact ⟨rfl, Or.inl (by rw [ht1])⟩
  | ok v1 t1 =>
  rw [hp1] at h
  simp only at h
  have ht1 := prim_ok_elim hp1
  cases hp2 : prim Ev.auditCleanup
      (fun db => cleanupOldAuditLogs db (t1.now - retentionMs))
      { t1 with now := t1.now + 1 } with
  | ok v2 t2 => rw [hp2] at h; exact absurd h (by simp)
  | err e2 t2 =>
    rw [hp2] at h
    simp only at h
    obtain ⟨rfl, rfl⟩ := RunResult.err.inj h
    obtain ⟨ht2, _⟩ := prim_err_elim hp2
    refine ⟨rfl, Or.inr ?_⟩
    rw [ht2, ht1]

theorem createRPBody_nofault (desc ty : String) (s : St) (h : s.faults = []) :
    createRecoveryPointBody desc ty s = RunResult.ok (newPointOf s ty desc)
      { s with
        db := snapshotDbOf s ty desc,
        trace := s.trace ++
          [Ev.addPoint ("uuid-" ++ toString s.nextId),
           Ev.addData ("uuid-" ++ toString s.nextId),
           Ev.updatePointStatus ("uuid-" ++ toString s.nextId) "completed",
           Ev.audit "create_recovery_point", Ev.auditCleanup],
        ctr := s.ctr + 5, nextId := s.nextId + 2, now := s.now + 3 } := by
  simp only [createRecoveryPointBody, freshUuid, freshDate, prim, logAudit,
    snapshotDbOf, newPointOf, dataRecordOf, createAuditDetails, h,
    List.contains_nil, Bool.false_eq_true, if_false, List.append_assoc,
    List.cons_append, List.nil_append, List.singleton_append]

theorem createRP_nofault (desc ty : String) (s : St) (h : s.faults = []) :
    createRecoveryPoint desc ty s = RunResult.ok (newPointOf s ty desc)
      { s with
        db := snapshotDbOf s ty desc,
        trace := s.trace ++
          [Ev.addPoint ("uuid-" ++ toString s.nextId),
           Ev.addData ("uuid-" ++ toString s.nextId),
           Ev.updatePointStatus ("uuid-" ++ toString s.nextId) "completed",
           Ev.audit "create_recovery_point", Ev.auditCleanup],
        ctr := s.ctr + 5, nextId := s.nextId + 2, now := s.now + 3 } := by
  unfold createRecoveryPoint
  rw [createRPBody_nofault desc ty s h]

theorem createRPBody_ok_elim {desc ty : String} {s s' : St} {p : JVal}
    (h : createRecoveryPointBody desc ty s = RunResult.ok p s') :
    p = newPointOf s ty desc ∧
    s' = { s with
      db := snapshotDbOf s ty desc,
      trace := s.trace ++
        [Ev.addPoint ("uuid-" ++ toString s.nextId),
         Ev.addData ("uuid-" ++ toString s.nextId),
         Ev.updatePointStatus ("uuid-" ++ toString s.nextId) "completed",
         Ev.audit "create_recovery_point", Ev.auditCleanup],
      ctr := s.ctr + 5, nextId := s.nextId + 2, now := s.now + 3 } := by
  simp only [createRecoveryPointBody, freshUuid, freshDate] at h
  cases hp1 : prim (Ev.addPoint ("uuid-" ++ toString s.nextId))
      (fun db => addRecord db "recoveryPoints"
        (mkRecoveryPoint ("uuid-" ++ toString s.nextId) s.now ty desc
          (calculateSize (exportData s.db (getAllTables s.db)))
          (calculateChecksum (exportData s.db (getAllTables s.db)))
          (getAllTables s.db)
          (getRecordCounts s.db (getAllTables s.db))))
      { s with nextId := s.nextId + 1, now := s.now + 1 } with
  | err e1 t1 => rw [hp1] at h; exact absurd h (by simp)
  | ok v1 t1 =>
  rw [hp1] at h
  simp only at h
  have ht1 := prim_ok_elim hp1
  cases hp2 : prim (Ev.addData ("uuid-" ++ toString s.nextId))
      (fun db => addRecord db "recoveryData"
        (JVal.obj [("id", JVal.str ("uuid-" ++ toString s.nextId)),
          ("data", JVal.str (encryptData (exportData s.db (getAllTables s.db))))])) t1 with
  | err e2 t2 => rw [hp2] at h; exact absurd h (by simp)
  | ok v2 t2 =>
  rw [hp2] at h
  simp only at h
  have ht2 := prim_ok_elim hp2
  cases hp3 : prim (Ev.updatePointStatus ("uuid-" ++ toString s.nextId) "completed")
      (fun db => updatePointStatusDb db ("uuid-" ++ toString s.nextId) "completed") t2 with
  | err e3 t3 => rw [hp3] at h; exact absurd h (by simp)
  | ok v3 t3 =>
  rw [hp3] at h
  simp only at h
  have ht3 := prim_ok_elim hp3
  cases hp4 : logAudit "system" "create_recovery_point" "recovery"
      (JVal.obj [("recoveryPointId", JVal.str ("uuid-" ++ toString s.nextId)),
        ("type", JVal.str ty), ("description", JVal.str desc)]) "internal" "system" t3 with
  | err e4 t4 => rw [hp4] at h; exact absurd h (by simp)
  | ok v4 t4 =>
  rw [hp4] at h
  simp only at h
  have ht4 := logAudit_ok_elim hp4
  obtain ⟨rfl, rfl⟩ := h
  subst ht1 ht2 ht3
  constructor
  · rfl
  · rw [ht4]
    simp only [snapshotDbOf, newPointOf, dataRecordOf, createAuditDetails,
      List.append_assoc, List.cons_append, List.nil_append, List.singleton_append]

theorem setTable_absent (db : DB) (t : String) (r : List JVal)
    (h : hasTable db t = false) : setTable db t r = db := by
  unfold setTable
  have hmem : t ∉ tableNames db := by
    unfold hasTable at h
    simpa using h
  have hne : ∀ p ∈ db, p.1 ≠ t := by
    intro p hp he
    exact hmem (he ▸ List.mem_map_of_mem Prod.fst hp)
  have hid : ∀ p ∈ db, (if p.1 = t then (p.1, r) else p) = p := by
    intro p hp
    rw [if_neg (hne p hp)]
  rw [List.map_congr_left hid]
  exact List.map_id db

theorem addRecord_absent (db : DB) (t : String) (r : JVal)
    (h : hasTable db t = false) : addRecord db t r = db :=
  setTable_absent db t _ h

theorem updatePointStatusDb_absent (db : DB) (pid st : String)
    (h : hasTable db "recoveryPoints" = false) :
    updatePointStatusDb db pid st = db :=
  setTable_absent db _ _ h

theorem cleanup_absent (db : DB) (c : Nat)
    (h : hasTable db "auditLogs" = false) : cleanupOldAuditLogs db c = db :=
  setTable_absent db _ _ h

theorem getField_mk_status (pid : String) (ts : Nat) (ty desc : String)
    (sz : Nat) (ck : String) (tabs : List String) (cnts : JVal) :
    getField (mkRecoveryPoint pid ts ty desc sz ck tabs cnts) "status" =
      some (JVal.str "pending") := rfl

theorem setField_nonobj (r : JVal) (k : String) (v : JVal)
    (h : ∀ fs, r ≠ JVal.obj fs) : setField r k v = r := by
  cases r <;> first | rfl | exact absurd rfl (h _)

/-- Membership in an updated `recoveryPoints` table: the status-update pass
maps every record either to itself or to a `completed`-status copy, and the
appended point starts `pending`. -/
theorem mem_statusUpdate {old : List JVal} {p : JVal} {pid : String}
    (hp : getField p "status" = some (JVal.str "pending"))
    (q : JVal)
    (hq : q ∈ (old ++ [p]).map (fun r =>
      if getField r "id" = some (JVal.str pid)
      then setField r "status" (JVal.str "completed") else r)) :
    q ∈ old ∨ getField q "status" = some (JVal.str "pending") ∨
      getField q "status" = some (JVal.str "completed") := by
  rw [List.mem_map] at hq
  obtain ⟨x, hx, hgx⟩ := hq
  rw [List.mem_append, List.mem_singleton] at hx
  by_cases hid : getField x "id" = some (JVal.str pid)
  · rw [if_pos hid] at hgx
    by_cases hxo : ∃ fs, x = JVal.obj fs
    · obtain ⟨fs, rfl⟩ := hxo
      right; right
      rw [← hgx]
      exact getField_setField_self fs _ _
    · rw [setField_nonobj x "status" (JVal.str "completed")
        (fun fs he => hxo ⟨fs, he⟩)] at hgx
      rcases hx with hx | hx
      · exact Or.inl (hgx ▸ hx)
      · subst hx
        exfalso
        cases x <;> first | exact hxo ⟨_, rfl⟩ | simp [getField] at hp
  · rw [if_neg hid] at hgx
    rcases hx with hx | hx
    · exact Or.inl (hgx ▸ hx)
    · right; left
      rw [← hgx, hx]
      exact hp

theorem getTable_snapshotDbOf_ne (s : St) (ty desc : String) (u : String)
    (h1 : u ≠ "recoveryPoints") (h2 : u ≠ "recoveryData") (h3 : u ≠ "auditLogs") :
    getTable (snapshotDbOf s ty desc) u = getTable s.db u := by
  unfold snapshotDbOf
  rw [getTable_cleanup_ne _ _ _ h3, getTable_addRecord_ne _ _ _ _ h3,
      getTable_updatePointStatusDb_ne _ _ _ _ h1, getTable_addRecord_ne _ _ _ _ h2,
      getTable_addRecord_ne _ _ _ _ h1]

theorem mem_addPoint_rp {db : DB} {p : JVal}
    (hp : getField p "status" = some (JVal.str "pending")) (q : JVal)
    (hq : q ∈ getTable (addRecord db "recoveryPoints" p) "recoveryPoints") :
    q ∈ getTable db "recoveryPoints" ∨
      getField q "status" = some (JVal.str "pending") ∨
      getField q "status" = some (JVal.str "completed") := by
  by_cases ht : hasTable db "recoveryPoints" = true
  · rw [getTable_addRecord_self db _ p ht] at hq
    rw [List.mem_append, List.mem_singleton] at hq
    rcases hq with hq | hq
    · exact Or.inl hq
    · right; left
      rw [hq]
      exact hp
  · rw [addRecord_absent db _ p (by simpa using ht)] at hq
    exact Or.inl hq

theorem mem_catalogWrite_rp {db : DB} {p d : JVal} {pid : String}
    (hp : getField p "status" = some (JVal.str "pending")) (q : JVal)
    (hq : q ∈ getTable
      (updatePointStatusDb
        (addRecord (addRecord db "recoveryPoints" p) "recoveryData" d)
        pid "completed") "recoveryPoints") :
    q ∈ getTable db "recoveryPoints" ∨
      getField q "status" = some (JVal.str "pending") ∨
      getField q "status" = some (JVal.str "completed") := by
  by_cases ht : hasTable db "recoveryPoints" = true
  · have ht2 : hasTable
        (addRecord (addRecord db "recoveryPoints" p) "recoveryData" d)
        "recoveryPoints" = true := by
      rw [hasTable_addRecord, hasTable_addRecord]
      exact ht
    rw [getTable_updatePointStatusDb_self _ _ _ ht2,
        getTable_addRecord_ne _ _ _ _ (by decide),
        getTable_addRecord_self db _ p ht] at hq
    exact mem_statusUpdate hp q hq
  · have ht2 : hasTable
        (addRecord (addRecord db "recoveryPoints" p) "recoveryData" d)
        "recoveryPoints" = false := by
      rw [hasTable_addRecord, hasTable_addRecord]
      simpa using ht
    rw [updatePointStatusDb_absent _ _ _ ht2,
        getTable_addRecord_ne _ _ _ _ (by decide),
        addRecord_absent db _ p (by simpa using ht)] at hq
    exact Or.inl hq

theorem newPointOf_status (s : St) (ty desc : String) :
    getField (newPointOf s ty desc) "status" = some (JVal.str "pending") := by
  unfold newPointOf
  exact getField_mk_status _ _ _ _ _ _ _ _

theorem mem_snapshotDbOf_rp (s : St) (ty desc : String) (q : JVal)
    (hq : q ∈ getTable (snapshotDbOf s ty desc) "recoveryPoints") :
    q ∈ getTable s.db "recoveryPoints" ∨
      getField q "status" = some (JVal.str "pending") ∨
      getField q "status" = some (JVal.str "completed") := by
  unfold snapshotDbOf at hq
  rw [getTable_cleanup_ne _ _ _ (by decide),
      getTable_addRecord_ne _ _ _ _ (by decide)] at hq
  exact mem_catalogWrite_rp (newPointOf_status s ty desc) q hq

theorem createRPBody_err_elim {desc ty : String} {s s' : St} {e : String}
    (h : createRecoveryPointBody desc ty s = RunResult.err e s') :
    s'.faults = s.faults ∧
    (∃ evs, s'.trace = s.trace ++ evs ∧
      ∀ ev ∈ evs, (∃ i, ev = Ev.addPoint i) ∨ (∃ i, ev = Ev.addData i) ∨
        (∃ i st2, ev = Ev.updatePointStatus i st2) ∨ (∃ a2, ev = Ev.audit a2)) ∧
    (∀ u, u ≠ "recoveryPoints" → u ≠ "recoveryData" → u ≠ "auditLogs" →
      getTable s'.db u = getTable s.db u) ∧
    (∀ q ∈ getTable s'.db "recoveryPoints",
      q ∈ getTable s.db "recoveryPoints" ∨
      getField q "status" = some (JVal.str "pending") ∨
      getField q "status" = some (JVal.str "completed")) := by
  simp only [createRecoveryPointBody, freshUuid, freshDate] at h
  cases hp1 : prim (Ev.addPoint ("uuid-" ++ toString s.nextId))
      (fun db => addRecord db "recoveryPoints"
        (mkRecoveryPoint ("uuid-" ++ toString s.nextId) s.now ty desc
          (calculateSize (exportData s.db (getAllTables s.db)))
          (calculateChecksum (exportData s.db (getAllTables s.db)))
          (getAllTables s.db)
          (getRecordCounts s.db (getAllTables s.db))))
      { s with nextId := s.nextId + 1, now := s.now + 1 } with
  | err e1 t1 =>
    rw [hp1] at h
    simp only at h
    obtain ⟨rfl, rfl⟩ := h
    obtain ⟨ht1, _⟩ := prim_err_elim hp1
    subst ht1
    refine ⟨rfl, ⟨[], by simp, by simp⟩, fun u _ _ _ => rfl, fun q hq => Or.inl hq⟩
  | ok v1 t1 =>
  rw [hp1] at h
  simp only at h
  have ht1 := prim_ok_elim hp1
  cases hp2 : prim (Ev.addData ("uuid-" ++ toString s.nextId))
      (fun db => addRecord db "recoveryData"
        (JVal.obj [("id", JVal.str ("uuid-" ++ toString s.nextId)),
          ("data", JVal.str (encryptData (exportData s.db (getAllTables s.db))))])) t1 with
  | err e2 t2 =>
    rw [hp2] at h
    simp only at h
    obtain ⟨rfl, rfl⟩ := h
    obtain ⟨ht2, _⟩ := prim_err_elim hp2
    subst ht2 ht1
    refine ⟨rfl, ⟨[Ev.addPoint ("uuid-" ++ toString s.nextId)], by simp, ?_⟩, ?_, ?_⟩
    · intro ev hev
      simp only [List.mem_singleton] at hev
      exact Or.inl ⟨_, hev⟩
    · intro u h1 _ _
      exact getTable_addRecord_ne _ _ _ _ h1
    · intro q hq
      exact mem_addPoint_rp (getField_mk_status _ _ _ _ _ _ _ _) q hq
  | ok v2 t2 =>
  rw [hp2] at h
  simp only at h
  have ht2 := prim_ok_elim hp2
  cases hp3 : prim (Ev.updatePointStatus ("uuid-" ++ toString s.nextId) "completed")
      (fun db => updatePointStatusDb db ("uuid-" ++ toString s.nextId) "completed") t2 with
  | err e3 t3 =>
    rw [hp3] at h
    simp only at h
    obtain ⟨rfl, rfl⟩ := h
    obtain ⟨ht3, _⟩ := prim_err_elim hp3
    subst ht3 ht2 ht1
    refine ⟨rfl, ⟨[Ev.addPoint ("uuid-" ++ toString s.nextId),
        Ev.addData ("uuid-" ++ toString s.nextId)], by simp, ?_⟩, ?_, ?_⟩
    · intro ev hev
      simp only [List.mem_cons, List.mem_singleton, List.not_mem_nil, or_false] at hev
      rcases hev with hev | hev
      · exact Or.inl ⟨_, hev⟩
      · exact Or.inr (Or.inl ⟨_, hev⟩)
    · intro u h1 h2 _
      rw [getTable_addRecord_ne _ _ _ _ h2, getTable_addRecord_ne _ _ _ _ h1]

    · intro q hq
      rw [getTable_addRecord_ne _ _ _ _ (by decide)] at hq
      exact mem_addPoint_rp (getField_mk_status _ _ _ _ _ _ _ _) q hq
  | ok v3 t3 =>
  rw [hp3] at h
  simp only at h
  have ht3 := prim_ok_elim hp3
  cases hp4 : logAudit "system" "create_recovery_point" "recovery"
      (JVal.obj [("recoveryPointId", JVal.str ("uuid-" ++ toString s.nextId)),
        ("type", JVal.str ty), ("description", JVal.str desc)]) "internal" "system" t3 with
  | err e4 t4 =>
    rw [hp4] at h
    simp only at h
    obtain ⟨rfl, rfl⟩ := h
    obtain ⟨_, hcase⟩ := logAudit_err_elim hp4
    subst ht3 ht2 ht1
    rcases hcase with ht4 | ht4
    · subst ht4
      refine ⟨rfl, ⟨[Ev.addPoint ("uuid-" ++ toString s.nextId),
          Ev.addData ("uuid-" ++ toString s.nextId),
          Ev.updatePointStatus ("uuid-" ++ toString s.nextId) "completed"], by simp, ?_⟩, ?_, ?_⟩
      · intro ev hev
        simp only [List.mem_cons, List.mem_singleton, List.not_mem_nil, or_false] at hev
        rcases hev with hev | hev | hev
        · exact Or.inl ⟨_, hev⟩
        · exact Or.inr (Or.inl ⟨_, hev⟩)
        · exact Or.inr (Or.inr (Or.inl ⟨_, _, hev⟩))
      · intro u h1 h2 _
        rw [getTable_updatePointStatusDb_ne _ _ _ _ h1,
            getTable_addRecord_ne _ _ _ _ h2, getTable_addRecord_ne _ _ _ _ h1]
      · intro q hq
        exact mem_catalogWrite_rp (getField_mk_status _ _ _ _ _ _ _ _) q hq
    · subst ht4
      refine ⟨rfl, ⟨[Ev.addPoint ("uuid-" ++ toString s.nextId),
          Ev.addData ("uuid-" ++ toString s.nextId),
          Ev.updatePointStatus ("uuid-" ++ toString s.nextId) "completed",
          Ev.audit "create_recovery_point"], by simp, ?_⟩, ?_, ?_⟩
      · intro ev hev
        simp only [List.mem_cons, List.mem_singleton, List.not_mem_nil, or_false] at hev
        rcases hev with hev | hev | hev | hev
        · exact Or.inl ⟨_, hev⟩
        · exact Or.inr (Or.inl ⟨_, hev⟩)
        · exact Or.inr (Or.inr (Or.inl ⟨_, _, hev⟩))
        · exact Or.inr (Or.inr (Or.inr ⟨_, hev⟩))
      · intro u h1 h2 h3
        rw [getTable_addRecord_ne _ _ _ _ h3,
            getTable_updatePointStatusDb_ne _ _ _ _ h1,
            getTable_addRecord_ne _ _ _ _ h2, getTable_addRecord_ne _ _ _ _ h1]
      · intro q hq
        rw [getTable_addRecord_ne _ _ _ _ (by decide)] at hq
        exact mem_catalogWrite_rp (getField_mk_status _ _ _ _ _ _ _ _) q hq
  | ok v4 t4 =>
    rw [hp4] at h
    exact absurd h (by simp)

theorem createRP_any (desc ty : String) (s : St) :
    (createRecoveryPoint desc ty s).stateOf.faults = s.faults ∧
    (∃ evs, (createRecoveryPoint desc ty s).stateOf.trace = s.trace ++ evs ∧
      ∀ ev ∈ evs, (∃ i, ev = Ev.addPoint i) ∨ (∃ i, ev = Ev.addData i) ∨
        (∃ i st2, ev = Ev.updatePointStatus i st2) ∨ (∃ a, ev = Ev.audit a) ∨
        ev = Ev.auditCleanup) ∧
    (∀ u, u ≠ "recoveryPoints" → u ≠ "recoveryData" → u ≠ "auditLogs" →
      getTable (createRecoveryPoint desc ty s).stateOf.db u = getTable s.db u) ∧
    (∀ q ∈ getTable (createRecoveryPoint desc ty s).stateOf.db "recoveryPoints",
      q ∈ getTable s.db "recoveryPoints" ∨
      getField q "status" = some (JVal.str "pending") ∨
      getField q "status" = some (JVal.str "completed")) := by
  unfold createRecoveryPoint
  cases hb : createRecoveryPointBody desc ty s with
  | ok p t =>
    obtain ⟨hp, ht⟩ := createRPBody_ok_elim hb
    subst ht
    simp only [RunResult.stateOf, RunResult.isOk]
    refine ⟨by trivial, ⟨_, rfl, ?_⟩, ?_, ?_⟩
    · intro ev hev
      simp only [List.mem_cons, List.mem_singleton, List.not_mem_nil, or_false] at hev
      rcases hev with hev | hev | hev | hev | hev
      · exact Or.inl ⟨_, hev⟩
      · exact Or.inr (Or.inl ⟨_, hev⟩)
      · exact Or.inr (Or.inr (Or.inl ⟨_, _, hev⟩))
      · exact Or.inr (Or.inr (Or.inr (Or.inl ⟨_, hev⟩)))
      · exact Or.inr (Or.inr (Or.inr (Or.inr hev)))
    · intro u h1 h2 h3
      exact getTable_snapshotDbOf_ne s ty desc u h1 h2 h3
    · intro q hq
      exact mem_snapshotDbOf_rp s ty desc q hq
  | err e t =>
    obtain ⟨h1, ⟨evs, h2, h3⟩, h4, h5⟩ := createRPBody_err_elim hb
    simp only [RunResult.stateOf, RunResult.isOk]
    refine ⟨h1, ⟨evs, h2, ?_⟩, ?_, h5⟩
    · intro ev hev
      rcases h3 ev hev with hx | hx | hx | hx
      · exact Or.inl hx
      · exact Or.inr (Or.inl hx)
      · exact Or.inr (Or.inr (Or.inl hx))
      · exact Or.inr (Or.inr (Or.inr (Or.inl hx)))
    · intro u hu1 hu2 hu3
      exact h4 u hu1 hu2 hu3

/-! ## Write-back (restore loop) lemmas -/

theorem restoreLoop_ok_spec {data : JVal} {opts : RecoveryOptions} :
    ∀ {ts : List String} {s s' : St},
    restoreLoop data opts ts s = RunResult.ok () s' →
    (∀ u, u ∉ ts → getTable s'.db u = getTable s.db u) ∧
    (∀ u ∈ ts, ¬(opts.preserveAuditTrail = true ∧ u = "auditLogs") →
      ∃ recs, getField data u = some (JVal.arr recs) ∧ getTable s'.db u = recs) ∧
    (opts.preserveAuditTrail = true →
      getTable s'.db "auditLogs" = getTable s.db "auditLogs") ∧
    (∃ evs, s'.trace = s.trace ++ evs ∧
      ∀ ev ∈ evs, ∃ t, t ∈ ts ∧ ¬(opts.preserveAuditTrail = true ∧ t = "auditLogs") ∧
        (ev = Ev.clearTable t ∨ ∃ n, ev = Ev.bulkAdd t n)) ∧
    s'.faults = s.faults ∧ s'.nextId = s.nextId ∧ s'.now = s.now := by
  intro ts
  induction ts with
  | nil =>
    intro s s' h
    simp only [restoreLoop] at h
    obtain rfl := (RunResult.ok.inj h).2
    exact ⟨fun u _ => rfl, by simp, fun _ => rfl, ⟨[], by simp, by simp⟩, rfl, rfl, rfl⟩
  | cons t rest ih =>
    intro s s' h
    simp only [restoreLoop] at h
    split at h
    case isTrue hmask =>
      obtain ⟨f1, f2, f3, ⟨evs, he, hm⟩, f5, f6, f7⟩ := ih h
      refine ⟨?_, ?_, f3, ⟨evs, he, ?_⟩, f5, f6, f7⟩
      · intro u hu
        exact f1 u (fun hx => hu (List.mem_cons_of_mem t hx))
      · intro u hu hmask2
        rcases List.mem_cons.mp hu with rfl | hu
        · exact absurd hmask hmask2
        · exact f2 u hu hmask2
      · intro ev hev
        obtain ⟨t2, ht2, hx⟩ := hm ev hev
        exact ⟨t2, List.mem_cons_of_mem t ht2, hx⟩
    case isFalse hmask =>
      split at h
      case isFalse => exact absurd h (by simp)
      case isTrue hht =>
        cases hp1 : prim (Ev.clearTable t) (fun db => setTable db t []) s with
        | err e1 s1 => rw [hp1] at h; exact absurd h (by simp)
        | ok v1 s1 =>
        rw [hp1] at h
        simp only at h
        have ht1 := prim_ok_elim hp1
        cases hg : getField data t with
        | none => rw [hg] at h; exact absurd h (by simp)
        | some v =>
        rw [hg] at h
        cases v with
        | null => exact absurd h (by simp)
        | bool b => exact absurd h (by simp)
        | num n => exact absurd h (by simp)
        | str s2 => exact absurd h (by simp)
        | date t2 => exact absurd h (by simp)
        | obj fs => exact absurd h (by simp)
        | arr recs =>
        simp only at h
        cases hp2 : prim (Ev.bulkAdd t recs.length)
            (fun db => setTable db t (getTable db t ++ recs)) s1 with
        | err e2 s2 => rw [hp2] at h; exact absurd h (by simp)
        | ok v2 s2 =>
        rw [hp2] at h
        simp only at h
        have ht2 := prim_ok_elim hp2
        obtain ⟨f1, f2, f3, ⟨evs, he, hm⟩, f5, f6, f7⟩ := ih h
        subst ht1 ht2
        have hdb2 : ∀ u, u ≠ t → getTable (setTable (setTable s.db t []) t
            (getTable (setTable s.db t []) t ++ recs)) u = getTable s.db u := by
          intro u hu
          rw [getTable_setTable_ne _ _ _ _ hu, getTable_setTable_ne _ _ _ _ hu]
        have hdbt : getTable (setTable (setTable s.db t []) t
            (getTable (setTable s.db t []) t ++ recs)) t = recs := by
          rw [getTable_setTable_self _ _ _ (by rw [hasTable_setTable]; exact hht),
              getTable_setTable_self _ _ _ hht]
          simp
        refine ⟨?_, ?_, ?_, ?_, by rw [f5], by rw [f6], by rw [f7]⟩
        · intro u hu
          have hut : u ≠ t := fun he2 => hu (he2 ▸ List.mem_cons_self t rest)
          rw [f1 u (fun hx => hu (List.mem_cons_of_mem t hx))]
          exact hdb2 u hut
        · intro u hu hmask2
          rcases List.mem_cons.mp hu with rfl | hu2
          · by_cases hur : u ∈ rest
            · exact f2 u hur hmask2
            · refine ⟨recs, hg, ?_⟩
              rw [f1 u hur]
              exact hdbt
          · exact f2 u hu2 hmask2
        · intro hpres
          have hta : t ≠ "auditLogs" := fun he2 => hmask ⟨hpres, he2⟩
          rw [f3 hpres]
          exact hdb2 _ (Ne.symm (Ne.symm hta)).symm
        · refine ⟨Ev.clearTable t :: Ev.bulkAdd t recs.length :: evs, by simp [he], ?_⟩
          intro ev hev
          rcases List.mem_cons.mp hev with rfl | hev
          · exact ⟨t, List.mem_cons_self t rest, hmask, Or.inl rfl⟩
          rcases List.mem_cons.mp hev with rfl | hev
          · exact ⟨t, List.mem_cons_self t rest, hmask, Or.inr ⟨_, rfl⟩⟩
          · obtain ⟨t2, ht2, hx⟩ := hm ev hev
            exact ⟨t2, List.mem_cons_of_mem t ht2, hx⟩

theorem restoreLoop_progress (data : JVal) (opts : RecoveryOptions) :
    ∀ {ts : List String} {s : St}, s.faults = [] →
    (∀ t ∈ ts, hasTable s.db t = true ∧
      ∃ recs, getField data t = some (JVal.arr recs)) →
    ∃ s', restoreLoop data opts ts s = RunResult.ok () s' := by
  intro ts
  induction ts with
  | nil =>
    intro s _ _
    exact ⟨s, rfl⟩
  | cons t rest ih =>
    intro s hf hall
    simp only [restoreLoop]
    split
    case isTrue => exact ih hf (fun t2 ht2 => hall t2 (List.mem_cons_of_mem t ht2))
    case isFalse =>
      obtain ⟨hht, recs, hrecs⟩ := hall t (List.mem_cons_self t rest)
      rw [if_pos hht, prim_nofault hf]
      simp only
      rw [hrecs]
      simp only
      rw [hf, prim_nofault rfl]
      simp only
      refine ih rfl ?_
      intro t2 ht2
      obtain ⟨h1, h2⟩ := hall t2 (List.mem_cons_of_mem t ht2)
      refine ⟨?_, h2⟩
      simp only [hasTable_setTable]
      exact h1

theorem performRestore_ok_elim {data : JVal} {opts : RecoveryOptions} {s s' : St}
    (h : performRestore data opts s = RunResult.ok () s') :
    ∃ s1, restoreLoop data opts (restoreTargets opts data) s = RunResult.ok () s1 ∧
      s'.db = s1.db ∧ s'.faults = s1.faults ∧ s'.nextId = s1.nextId ∧
      s'.now = s1.now ∧
      (s'.trace = s1.trace ∨ s'.trace = s1.trace ++ [Ev.notify]) := by
  simp only [performRestore] at h
  cases hl : restoreLoop data opts (restoreTargets opts data) s with
  | err e s1 => rw [hl] at h; exact absurd h (by simp)
  | ok v s1 =>
    rw [hl] at h
    simp only at h
    cases v
    split at h
    · obtain rfl := (RunResult.ok.inj h).2
      exact ⟨s1, rfl, rfl, rfl, rfl, rfl, Or.inr rfl⟩
    · obtain rfl := (RunResult.ok.inj h).2
      exact ⟨s1, rfl, rfl, rfl, rfl, rfl, Or.inl rfl⟩

theorem performRestore_progress (data : JVal) (opts : RecoveryOptions) (s : St)
    (hf : s.faults = [])
    (hall : ∀ t ∈ restoreTargets opts data, hasTable s.db t = true ∧
      ∃ recs, getField data t = some (JVal.arr recs)) :
    ∃ s', performRestore data opts s = RunResult.ok () s' := by
  obtain ⟨s1, hs1⟩ := restoreLoop_progress data opts hf hall
  simp only [performRestore]
  rw [hs1]
  simp only
  split
  · exact ⟨_, rfl⟩
  · exact ⟨s1, rfl⟩

/-! ## Listing-order lemma -/

theorem sortByTsDesc_append_max {old : List JVal} {r : JVal}
    (hmax : ∀ q ∈ old, pointTs q < pointTs r) :
    sortByTsDesc (old ++ [r]) = r :: sortByTsDesc old := by
  induction old with
  | nil => rfl
  | cons a rest ih =>
    have hr : pointTs a < pointTs r := hmax a (List.mem_cons_self a rest)
    rw [List.cons_append]
    show insertByTsDesc a (sortByTsDesc (rest ++ [r])) =
      r :: insertByTsDesc a (sortByTsDesc rest)
    rw [ih (fun q hq => hmax q (List.mem_cons_of_mem a hq))]
    unfold insertByTsDesc
    rw [if_neg (by omega)]
    cases sortByTsDesc rest with
    | nil => rfl
    | cons x xs => rfl

/-! ## Restore assembly lemmas -/

theorem hasTable_snapshotDbOf (s : St) (ty desc : String) (u : String) :
    hasTable (snapshotDbOf s ty desc) u = hasTable s.db u := by
  unfold snapshotDbOf
  rw [hasTable_cleanup, hasTable_addRecord, hasTable_updatePointStatusDb,
      hasTable_addRecord, hasTable_addRecord]

theorem logAudit_nofault (u a r : String) (d : JVal) (ip ua : String) (s : St)
    (h : s.faults = []) :
    logAudit u a r d ip ua s = RunResult.ok ()
      { s with
        db := cleanupOldAuditLogs
          (addRecord s.db "auditLogs"
            (mkAuditEntry ("uuid-" ++ toString s.nextId) s.now u a r d ip ua))
          ((s.now + 1) - retentionMs),
        trace := s.trace ++ [Ev.audit a, Ev.auditCleanup],
        ctr := s.ctr + 2, nextId := s.nextId + 1, now := s.now + 2 } := by
  simp only [logAudit, freshUuid, freshDate, prim, h, List.contains_nil,
    Bool.false_eq_true, if_false, List.append_assoc, List.cons_append,
    List.nil_append, List.singleton_append]

theorem restoreFromPoint_ok_elim {pid : String} {opts : RecoveryOptions}
    {v : String → JVal → Bool} {s s' : St}
    (h : restoreFromPoint pid opts v s = RunResult.ok () s') :
    restoreBody pid opts v s = RunResult.ok () s' := by
  unfold restoreFromPoint at h
  cases hb : restoreBody pid opts v s with
  | ok u t =>
    rw [hb] at h
    cases u
    simp only at h
    obtain rfl := (RunResult.ok.inj h).2
    rfl
  | err e t =>
    rw [hb] at h
    exact absurd h (by simp)

theorem restoreBody_ok_elim {pid : String} {opts : RecoveryOptions}
    {v : String → JVal → Bool} {s s' : St}
    (h : restoreBody pid opts v s = RunResult.ok () s') :
    ∃ data, restoreChecks pid opts v s.db = Except.ok data ∧
    ∃ snap s1, createRecoveryPoint autoSnapshotDescription "automatic" s =
        RunResult.ok snap s1 ∧
    ∃ s2, performRestore data opts s1 = RunResult.ok () s2 ∧
      logAudit "system" "restore_from_point" "recovery"
        (JVal.obj [("recoveryPointId", JVal.str pid), ("options", optionsJ opts),
          ("preRestoreSnapshotId", (getField snap "id").getD JVal.null)])
        "internal" "system" s2 = RunResult.ok () s' := by
  unfold restoreBody at h
  cases hc : restoreChecks pid opts v s.db with
  | error e => rw [hc] at h; exact absurd h (by simp)
  | ok data =>
  rw [hc] at h
  simp only at h
  cases hs : createRecoveryPoint autoSnapshotDescription "automatic" s with
  | err e s1 => rw [hs] at h; exact absurd h (by simp)
  | ok snap s1 =>
  rw [hs] at h
  simp only at h
  cases hp : performRestore data opts s1 with
  | err e s2 => rw [hp] at h; exact absurd h (by simp)
  | ok u s2 =>
  rw [hp] at h
  cases u
  simp only at h
  exact ⟨data, rfl, snap, s1, rfl, s2, by first | rfl | exact hp, h⟩

theorem restoreBody_snapfail {pid : String} {opts : RecoveryOptions}
    {v : String → JVal → Bool} {s s1 : St} {data : JVal} {e : String}
    (hc : restoreChecks pid opts v s.db = Except.ok data)
    (hs : createRecoveryPoint autoSnapshotDescription "automatic" s =
      RunResult.err e s1) :
    restoreFromPoint pid opts v s =
      RunResult.err ("Failed to restore from recovery point: " ++ e) s1 := by
  unfold restoreFromPoint restoreBody
  rw [hc]
  simp only
  rw [hs]

theorem restoreFromPoint_nofault_ok {pid : String} {opts : RecoveryOptions}
    {v : String → JVal → Bool} {s : St} {data : JVal}
    (hf : s.faults = [])
    (hc : restoreChecks pid opts v s.db = Except.ok data)
    (hall : ∀ t ∈ restoreTargets opts data, hasTable s.db t = true ∧
      ∃ recs, getField data t = some (JVal.arr recs)) :
    ∃ s', restoreFromPoint pid opts v s = RunResult.ok () s' := by
  unfold restoreFromPoint restoreBody
  rw [hc]
  simp only
  rw [createRP_nofault autoSnapshotDescription "automatic" s hf]
  simp only
  have hall2 : ∀ t ∈ restoreTargets opts data,
      hasTable (snapshotDbOf s "automatic" autoSnapshotDescription) t = true ∧
      ∃ recs, getField data t = some (JVal.arr recs) := by
    intro t ht
    obtain ⟨h1, h2⟩ := hall t ht
    rw [hasTable_snapshotDbOf]
    exact ⟨h1, h2⟩
  obtain ⟨s2, h2⟩ := performRestore_progress data opts
    { s with
      db := snapshotDbOf s "automatic" autoSnapshotDescription,
      trace := s.trace ++
        [Ev.addPoint ("uuid-" ++ toString s.nextId),
         Ev.addData ("uuid-" ++ toString s.nextId),
         Ev.updatePointStatus ("uuid-" ++ toString s.nextId) "completed",
         Ev.audit "create_recovery_point", Ev.auditCleanup],
      ctr := s.ctr + 5, nextId := s.nextId + 2, now := s.now + 3 }
    hf hall2
  rw [h2]
  simp only
  obtain ⟨s3, hs3, hdb, hfl, _, _, _⟩ := performRestore_ok_elim h2
  obtain ⟨_, _, _, _, hfl3, _, _⟩ := restoreLoop_ok_spec hs3
  rw [logAudit_nofault _ _ _ _ _ _ s2 (by rw [hfl, hfl3]; exact hf)]
  exact ⟨_, rfl⟩

/-! ## Claims -/

/-- C1 (code_bug): tamper detection is broken by the placeholder checksum.
`calculateChecksum` is the constant `"checksum"`, so a one-byte mutation of
the stored ciphertext that still parses (here `{"jobs":[{"id":1}]}` mutated
to `{"jobs":[{"id":2}]}`) passes the integrity comparison: `restoreFromPoint`
succeeds and overwrites the live `jobs` collection with the tampered records,
instead of failing with an integrity error and leaving the store untouched.
(A mutation of the stored *checksum* byte is still caught, because the
recomputed constant no longer matches.) -/
theorem C1_checksum_placeholder_bug :
    encryptData (JVal.obj [("jobs", JVal.arr [JVal.obj [("id", JVal.num 1)]])]) =
      "\x7b\"jobs\":[\x7b\"id\":1\x7d]\x7d" ∧
    (RunResult.isOk (restoreFromPoint "rp1" defaultOptions trueValidator tamperedSt)) = true ∧
    getTable (RunResult.stateOf
      (restoreFromPoint "rp1" defaultOptions trueValidator tamperedSt)).db "jobs" =
      [JVal.obj [("id", JVal.num 2)]] ∧
    getTable tamperedSt.db "jobs" = [JVal.obj [("id", JVal.num 1)]] ∧
    (RunResult.isOk (restoreFromPoint "rp1" defaultOptions trueValidator badChecksumSt)) = false := by
  decide

/-- C2 (counterexample): a recovery point whose `status` is `"failed"` (with
its data row intact) is restored successfully — `restoreFromPoint` raises no
`InvalidStateError` and proceeds to the write-back. -/
theorem C2_counterexample_failed_point_restores :
    (Option.map (fun p => getField p "status")
      (findRecord failedPointSt.db "recoveryPoints" "rp1")) =
      some (some (JVal.str "failed")) ∧
    (RunResult.isOk (restoreFromPoint "rp1" defaultOptions trueValidator failedPointSt)) = true ∧
    getTable (RunResult.stateOf
      (restoreFromPoint "rp1" defaultOptions trueValidator failedPointSt)).db "jobs" =
      [JVal.obj [("id", JVal.num 9)]] := by
  decide

/-- C3 (counterexample): the `RecoveryPoint` value returned by a successful
`createSnapshot` call has `status = "pending"`, not `"completed"` — only the
catalog copy is updated to `completed`. -/
theorem C3_counterexample_returned_status_pending :
    (RunResult.isOk (createSnapshot "nightly" plainSt)) = true ∧
    getField (RunResult.valOf (createSnapshot "nightly" plainSt)) "status" =
      some (JVal.str "pending") ∧
    ¬ getField (RunResult.valOf (createSnapshot "nightly" plainSt)) "status" =
      some (JVal.str "completed") := by
  decide

/-- C4 (counterexample): when `recoveryData.add` fails after the point record
was persisted, `createSnapshot` re-raises the error but the persisted point's
status remains `"pending"` — it is never updated to `"failed"`. -/
theorem C4_counterexample_status_stays_pending :
    (RunResult.isOk (createSnapshot "nightly" faultyDataAddSt)) = false ∧
    (getTable (RunResult.stateOf (createSnapshot "nightly" faultyDataAddSt)).db
      "recoveryPoints").map (fun q => getField q "status") =
      [some (JVal.str "pending")] ∧
    (getTable (RunResult.stateOf (createSnapshot "nightly" faultyDataAddSt)).db
      "recoveryPoints").map (fun q => getField q "id") =
      [some (JVal.str "uuid-0")] := by
  decide

/-- C5 (counterexample): when the pre-restore safety snapshot fails partway
(its `recoveryData.add` throws after its `recoveryPoints.add` succeeded), the
restore is aborted and the write-back never runs — but the live
`recoveryPoints` collection has been modified: it retains the partial
snapshot's `pending` point. -/
theorem C5_counterexample_partial_snapshot_persists :
    (RunResult.isOk (restoreFromPoint "rp1" defaultOptions trueValidator snapFaultSt)) = false ∧
    (RunResult.stateOf
      (restoreFromPoint "rp1" defaultOptions trueValidator snapFaultSt)).trace =
      [Ev.addPoint "uuid-0"] ∧
    getTable (RunResult.stateOf
      (restoreFromPoint "rp1" defaultOptions trueValidator snapFaultSt)).db "jobs" =
      getTable snapFaultSt.db "jobs" ∧
    ¬ getTable (RunResult.stateOf
      (restoreFromPoint "rp1" defaultOptions trueValidator snapFaultSt)).db "recoveryPoints" =
      getTable snapFaultSt.db "recoveryPoints" ∧
    (getTable (RunResult.stateOf
      (restoreFromPoint "rp1" defaultOptions trueValidator snapFaultSt)).db
      "recoveryPoints").length = 2 := by
  decide

/-- C6 (code_bug): the placeholder codec (`encryptData = JSON.stringify`,
`decryptData = JSON.parse`, both marked `// Placeholder` in the source) does
not round-trip payloads whose records contain `Date` values: the `Date` comes
back as its ISO string, so `decrypt(encrypt(P)) ≠ P` for the very payloads
snapshot export produces (schema records carry `Date` fields).  The constant
placeholder checksum is trivially deterministic, so only the round-trip half
fails. -/
theorem C6_date_roundtrip_bug :
    decryptData (encryptData datePayload) =
      some (JVal.obj [("candidates",
        JVal.arr [JVal.obj [("hireDate", JVal.str (dateISO 5))]])]) ∧
    ¬ decryptData (encryptData datePayload) = some datePayload ∧
    calculateChecksum datePayload = calculateChecksum datePayload := by
  decide

/-- C7 (counterexample): after a successful restore with
`preserveAuditTrail: true`, the live `auditLogs` collection is *not*
byte-identical to its pre-restore content: the write-back leaves it alone,
but the audit sink appends the safety-snapshot and restore audit events to
that same collection. -/
theorem C7_counterexample_audit_log_not_byte_identical :
    (RunResult.isOk (restoreFromPoint "rp1" preserveOpts trueValidator preserveSt)) = true ∧
    ¬ getTable (RunResult.stateOf
      (restoreFromPoint "rp1" preserveOpts trueValidator preserveSt)).db "auditLogs" =
      getTable preserveSt.db "auditLogs" ∧
    (getTable (RunResult.stateOf
      (restoreFromPoint "rp1" preserveOpts trueValidator preserveSt)).db
      "auditLogs").head? =
      some (JVal.obj [("id", JVal.str "a0"), ("timestamp", JVal.date 3)]) ∧
    (getTable (RunResult.stateOf
      (restoreFromPoint "rp1" preserveOpts trueValidator preserveSt)).db
      "auditLogs").length = 3 ∧
    getTable (RunResult.stateOf
      (restoreFromPoint "rp1" preserveOpts trueValidator preserveSt)).db "jobs" =
      [JVal.obj [("id", JVal.num 7)]] := by
  decide

/-- C8 (counterexample): in a selective restore (`collections: ["jobs"]`),
the listed collection is restored and `candidates` keeps its live content —
but not *every* collection outside the subset retains its pre-restore
content: the recovery catalog's own `recoveryPoints` collection gains the
pre-restore safety snapshot's entry. -/
theorem C8_counterexample_catalog_modified :
    (RunResult.isOk (restoreFromPoint "rp1" selectiveOpts trueValidator selectiveSt)) = true ∧
    getTable (RunResult.stateOf
      (restoreFromPoint "rp1" selectiveOpts trueValidator selectiveSt)).db "jobs" =
      [JVal.obj [("id", JVal.num 11)]] ∧
    getTable (RunResult.stateOf
      (restoreFromPoint "rp1" selectiveOpts trueValidator selectiveSt)).db "candidates" =
      getTable selectiveSt.db "candidates" ∧
    ¬ getTable (RunResult.stateOf
      (restoreFromPoint "rp1" selectiveOpts trueValidator selectiveSt)).db "recoveryPoints" =
      getTable selectiveSt.db "recoveryPoints" ∧
    (getTable (RunResult.stateOf
      (restoreFromPoint "rp1" selectiveOpts trueValidator selectiveSt)).db
      "recoveryPoints").length = 2 := by
  decide

/-- C9 (counterexample): the recovery manager's snapshot-creation produces a
point whose kind/type is `"manual"` (default) — not `"full"`. -/
theorem C9_counterexample_type_manual :
    (RunResult.isOk (createSnapshot "nightly" plainSt)) = true ∧
    getField (RunResult.valOf (createSnapshot "nightly" plainSt)) "type" =
      some (JVal.str "manual") ∧
    ¬ getField (RunResult.valOf (createSnapshot "nightly" plainSt)) "type" =
      some (JVal.str "full") := by
  decide

theorem createRP_ok_elim {desc ty : String} {s s' : St} {p : JVal}
    (h : createRecoveryPoint desc ty s = RunResult.ok p s') :
    createRecoveryPointBody desc ty s = RunResult.ok p s' := by
  unfold createRecoveryPoint at h
  cases hb : createRecoveryPointBody desc ty s with
  | ok q t => rw [hb] at h; exact h
  | err e t => rw [hb] at h; exact absurd h (by simp)

theorem createRP_err_elim {desc ty : String} {s s' : St} {e : String}
    (h : createRecoveryPoint desc ty s = RunResult.err e s') :
    ∃ e0, e = "Failed to create recovery point: " ++ e0 ∧
      createRecoveryPointBody desc ty s = RunResult.err e0 s' := by
  unfold createRecoveryPoint at h
  cases hb : createRecoveryPointBody desc ty s with
  | ok q t => rw [hb] at h; exact absurd h (by simp)
  | err e0 t =>
    rw [hb] at h
    obtain ⟨he, ht⟩ := RunResult.err.inj h
    exact ⟨e0, he.symm, ht ▸ rfl⟩

theorem getField_obj_of_mem_keys {fs : List (String × JVal)} {t : String}
    (ht : t ∈ fs.map Prod.fst)
    (harr : ∀ f ∈ fs, ∃ recs, f.2 = JVal.arr recs) :
    ∃ recs, getField (JVal.obj fs) t = some (JVal.arr recs) := by
  have hsome : (fs.find? (fun g => g.1 == t)).isSome = true := by
    rw [List.find?_isSome]
    obtain ⟨f, hf, rfl⟩ := List.mem_map.mp ht
    exact ⟨f, hf, by simp⟩
  cases hfind : fs.find? (fun g => g.1 == t) with
  | none => rw [hfind] at hsome; simp at hsome
  | some g =>
    obtain ⟨recs, hrecs⟩ := harr g (List.mem_of_find?_eq_some hfind)
    refine ⟨recs, ?_⟩
    simp only [getField, hfind]
    show some g.2 = some (JVal.arr recs)
    rw [hrecs]

/-- C2 (amended): `restoreFromPoint` never inspects the point's status.  For
*any* status string `st` — in particular `"pending"` and `"failed"` — a point
that exists, whose data row exists and decrypts, and whose stored checksum
equals the (placeholder) recomputed checksum, is restored successfully; no
`InvalidStateError` exists in this code path. -/
theorem C2_amended_status_not_checked
    (s : St) (pid : String) (v : String → JVal → Bool) (point rd : JVal)
    (st c : String) (fs : List (String × JVal))
    (hf : s.faults = [])
    (hpt : findRecord s.db "recoveryPoints" pid = some point)
    (_hst : getField point "status" = some (JVal.str st))
    (hrd : findRecord s.db "recoveryData" pid = some rd)
    (hdata : getField rd "data" = some (JVal.str c))
    (hdec : decryptData c = some (JVal.obj fs))
    (hck : getField point "checksum" = some (JVal.str "checksum"))
    (harr : ∀ f ∈ fs, hasTable s.db f.1 = true ∧ ∃ recs, f.2 = JVal.arr recs) :
    ∃ s', restoreFromPoint pid defaultOptions v s = RunResult.ok () s' := by
  have hc : restoreChecks pid defaultOptions v s.db = Except.ok (JVal.obj fs) := by
    unfold restoreChecks
    rw [hpt, hrd]
    simp only
    rw [hdata]
    simp only
    rw [hdec]
    simp only
    rw [show calculateChecksum (JVal.obj fs) = "checksum" from rfl, if_pos hck]
    rfl
  refine restoreFromPoint_nofault_ok hf hc ?_
  intro t ht
  have ht2 : t ∈ fs.map Prod.fst := by
    simpa [restoreTargets, defaultOptions, objKeys] using ht
  obtain ⟨f, hfmem, rfl⟩ := List.mem_map.mp ht2
  refine ⟨(harr f hfmem).1, ?_⟩
  exact getField_obj_of_mem_keys ht2 (fun g hg => (harr g hg).2)

/-- Witness for C2's amended theorem: the `failed`-status point of the
counterexample store satisfies every hypothesis, so its restore succeeds. -/
theorem C2_amended_witness :
    ∃ s', restoreFromPoint "rp1" defaultOptions trueValidator failedPointSt =
      RunResult.ok () s' :=
  C2_amended_status_not_checked failedPointSt "rp1" trueValidator
    (setField
      (mkRecoveryPoint "rp1" 0 "manual" "snap" 0 "checksum" ["jobs"]
        (JVal.obj [("jobs", JVal.num 1)]))
      "status" (JVal.str "failed"))
    (JVal.obj [("id", JVal.str "rp1"),
      ("data", JVal.str "\x7b\"jobs\":[\x7b\"id\":9\x7d]\x7d")])
    "failed" "\x7b\"jobs\":[\x7b\"id\":9\x7d]\x7d"
    [("jobs", JVal.arr [JVal.obj [("id", JVal.num 9)]])]
    rfl (by decide) (by decide) (by decide) (by decide) (by decide) (by decide)
    (by
      intro f hf
      simp only [List.mem_singleton] at hf
      subst hf
      exact ⟨by decide, ⟨[JVal.obj [("id", JVal.num 9)]], rfl⟩⟩)

/-- C3 (amended): a successful `createSnapshot(desc)` returns the in-memory
point, whose status is still `"pending"` (only the catalog copy is updated to
`"completed"`); the first element of a subsequent `listRecoveryPoints()` is
that same point's catalog copy — same id, same description, status
`"completed"` — provided the new point's timestamp is strictly newer than all
existing points' and its generated id is fresh. -/
theorem C3_amended_create_and_list (s : St) (desc : String)
    (hf : s.faults = [])
    (hrp : hasTable s.db "recoveryPoints" = true)
    (hfresh : ∀ q ∈ getTable s.db "recoveryPoints",
      ¬ getField q "id" = some (JVal.str ("uuid-" ++ toString s.nextId)))
    (hts : ∀ q ∈ getTable s.db "recoveryPoints", pointTs q < s.now) :
    ∃ s', createSnapshot desc s = RunResult.ok (newPointOf s "manual" desc) s' ∧
    getField (newPointOf s "manual" desc) "status" = some (JVal.str "pending") ∧
    getField (newPointOf s "manual" desc) "description" = some (JVal.str desc) ∧
    (listRecoveryPoints s').head? =
      some (setField (newPointOf s "manual" desc) "status" (JVal.str "completed")) ∧
    getField (setField (newPointOf s "manual" desc) "status" (JVal.str "completed"))
      "id" = getField (newPointOf s "manual" desc) "id" ∧
    getField (setField (newPointOf s "manual" desc) "status" (JVal.str "completed"))
      "description" = some (JVal.str desc) ∧
    getField (setField (newPointOf s "manual" desc) "status" (JVal.str "completed"))
      "status" = some (JVal.str "completed") := by
  refine ⟨_, createRP_nofault desc "manual" s hf, rfl, rfl, ?_, rfl, rfl, rfl⟩
  have e1 : getTable (snapshotDbOf s "manual" desc) "recoveryPoints" =
      getTable s.db "recoveryPoints" ++
        [setField (newPointOf s "manual" desc) "status" (JVal.str "completed")] := by
    unfold snapshotDbOf
    rw [getTable_cleanup_ne _ _ _ (by decide), getTable_addRecord_ne _ _ _ _ (by decide),
        getTable_updatePointStatusDb_self _ _ _
          (by rw [hasTable_addRecord, hasTable_addRecord]; exact hrp),
        getTable_addRecord_ne _ _ _ _ (by decide), getTable_addRecord_self _ _ _ hrp,
        List.map_append]
    rw [List.map_congr_left
      (fun q hq => if_neg (hfresh q hq) : ∀ q ∈ getTable s.db "recoveryPoints",
        (if getField q "id" = some (JVal.str ("uuid-" ++ toString s.nextId))
         then setField q "status" (JVal.str "completed") else q) = id q)]
    rw [List.map_id', List.map_cons, List.map_nil]
    rw [if_pos (show getField (newPointOf s "manual" desc) "id" =
      some (JVal.str ("uuid-" ++ toString s.nextId)) from rfl)]
  show (sortByTsDesc (getTable (snapshotDbOf s "manual" desc) "recoveryPoints")).head? = _
  rw [e1, sortByTsDesc_append_max]
  · rfl
  · intro q hq
    rw [show pointTs (setField (newPointOf s "manual" desc) "status"
      (JVal.str "completed")) = s.now from rfl]
    exact hts q hq

/-- Witness for C3's amended theorem at a concrete store. -/
theorem C3_amended_witness :
    ∃ s', createSnapshot "nightly" plainSt =
      RunResult.ok (newPointOf plainSt "manual" "nightly") s' ∧
    getField (newPointOf plainSt "manual" "nightly") "status" =
      some (JVal.str "pending") ∧
    getField (newPointOf plainSt "manual" "nightly") "description" =
      some (JVal.str "nightly") ∧
    (listRecoveryPoints s').head? =
      some (setField (newPointOf plainSt "manual" "nightly") "status"
        (JVal.str "completed")) ∧
    getField (setField (newPointOf plainSt "manual" "nightly") "status"
      (JVal.str "completed")) "id" =
      getField (newPointOf plainSt "manual" "nightly") "id" ∧
    getField (setField (newPointOf plainSt "manual" "nightly") "status"
      (JVal.str "completed")) "description" = some (JVal.str "nightly") ∧
    getField (setField (newPointOf plainSt "manual" "nightly") "status"
      (JVal.str "completed")) "status" = some (JVal.str "completed") :=
  C3_amended_create_and_list plainSt "nightly" rfl (by decide)
    (by intro q hq; simp [plainSt, plainDB, getTable] at hq)
    (by intro q hq; simp [plainSt, plainDB, getTable] at hq)

/-- C4 (amended): snapshot creation never transitions a point to `"failed"`.
Whatever faults occur, every record of the `recoveryPoints` table after a
`createRecoveryPoint` call is either a pre-existing record or carries status
`"pending"` (persisted, completion not reached) or `"completed"`; and when
the very first catalog write fails — failure before the point is persisted —
the call raises the write error and the store is unchanged. -/
theorem C4_amended_no_failed_transition (desc ty : String) (s : St) :
    (∀ q ∈ getTable (RunResult.stateOf (createRecoveryPoint desc ty s)).db
        "recoveryPoints",
      q ∈ getTable s.db "recoveryPoints" ∨
      getField q "status" = some (JVal.str "pending") ∨
      getField q "status" = some (JVal.str "completed")) ∧
    (s.faults.contains s.ctr = true →
      createRecoveryPoint desc ty s =
        RunResult.err "Failed to create recovery point: Database error"
          { s with ctr := s.ctr + 1, nextId := s.nextId + 1, now := s.now + 1 }) := by
  constructor
  · exact (createRP_any desc ty s).2.2.2
  · intro h
    simp only [createRecoveryPoint, createRecoveryPointBody, freshUuid, freshDate,
      prim, h, if_true]
    rfl

/-- Witness for C4's amended theorem: with a fault at the second write the
persisted point stays `pending` (part 1 applied to it), and with a fault at
the first write nothing is persisted (part 2). -/
theorem C4_amended_witness :
    (newPointOf faultyDataAddSt "manual" "w" ∈
        getTable (RunResult.stateOf (createRecoveryPoint "w" "manual"
          faultyDataAddSt)).db "recoveryPoints" ∧
      (newPointOf faultyDataAddSt "manual" "w" ∈
        getTable faultyDataAddSt.db "recoveryPoints" ∨
      getField (newPointOf faultyDataAddSt "manual" "w") "status" =
        some (JVal.str "pending") ∨
      getField (newPointOf faultyDataAddSt "manual" "w") "status" =
        some (JVal.str "completed"))) ∧
    createRecoveryPoint "w" "manual" zeroFaultSt =
      RunResult.err "Failed to create recovery point: Database error"
        { zeroFaultSt with ctr := 1, nextId := 1, now := 11 } :=
  ⟨⟨by decide,
    (C4_amended_no_failed_transition "w" "manual" faultyDataAddSt).1
      (newPointOf faultyDataAddSt "manual" "w") (by decide)⟩,
   (C4_amended_no_failed_transition "w" "manual" zeroFaultSt).2 (by decide)⟩

/-- C5 (amended): (1) every `restoreFromPoint` execution that reaches the
write-back (every successful run) has first completed the pre-restore safety
snapshot — its trace starts with the four snapshot events (point persisted,
data persisted, status completed, snapshot audit) and the restore's own audit
event comes strictly later; (2) if the safety snapshot fails, the restore
aborts with the wrapped error, the write-back never runs (no new clear or
bulk-insert events), and every collection other than the catalog's own
`recoveryPoints`/`recoveryData` and the audit log is left unmodified — the
catalog collections may retain the partial snapshot (which is what the
counterexample exhibits), and `auditLogs` may retain the snapshot's appended
audit entry when the failing write is the retention cleanup that follows the
separately-awaited `auditLogs.add`. -/
theorem C5_amended_safety_snapshot :
    (∀ (s s' : St) (pid : String) (opts : RecoveryOptions)
      (v : String → JVal → Bool),
      restoreFromPoint pid opts v s = RunResult.ok () s' →
      ∃ rest, s'.trace = s.trace ++
        [Ev.addPoint ("uuid-" ++ toString s.nextId),
         Ev.addData ("uuid-" ++ toString s.nextId),
         Ev.updatePointStatus ("uuid-" ++ toString s.nextId) "completed",
         Ev.audit "create_recovery_point"] ++ rest ∧
        Ev.audit "restore_from_point" ∈ rest) ∧
    (∀ (s s1 : St) (pid : String) (opts : RecoveryOptions)
      (v : String → JVal → Bool) (data : JVal) (e : String),
      restoreChecks pid opts v s.db = Except.ok data →
      createRecoveryPoint autoSnapshotDescription "automatic" s =
        RunResult.err e s1 →
      restoreFromPoint pid opts v s =
        RunResult.err ("Failed to restore from recovery point: " ++ e) s1 ∧
      (∀ u, u ≠ "recoveryPoints" → u ≠ "recoveryData" → u ≠ "auditLogs" →
        getTable s1.db u = getTable s.db u) ∧
      (∀ ev ∈ s1.trace, ev ∈ s.trace ∨ (∃ i, ev = Ev.addPoint i) ∨
        (∃ i, ev = Ev.addData i) ∨ (∃ i st2, ev = Ev.updatePointStatus i st2) ∨
        (∃ a2, ev = Ev.audit a2))) := by
  constructor
  · intro s s' pid opts v h
    obtain ⟨data, hc, snap, s1, hs, s2, hp, ha⟩ :=
      restoreBody_ok_elim (restoreFromPoint_ok_elim h)
    obtain ⟨hsnap_p, hsnap_s⟩ := createRPBody_ok_elim (createRP_ok_elim hs)
    obtain ⟨s3, hs3, _, _, _, _, htr2⟩ := performRestore_ok_elim hp
    obtain ⟨_, _, _, ⟨evs, htr3, _⟩, _, _, _⟩ := restoreLoop_ok_spec hs3
    have ha2 := logAudit_ok_elim ha
    have htr' : s'.trace = s2.trace ++
        [Ev.audit "restore_from_point", Ev.auditCleanup] := by
      rw [ha2]
    have htr1 : s1.trace = s.trace ++
        [Ev.addPoint ("uuid-" ++ toString s.nextId),
         Ev.addData ("uuid-" ++ toString s.nextId),
         Ev.updatePointStatus ("uuid-" ++ toString s.nextId) "completed",
         Ev.audit "create_recovery_point", Ev.auditCleanup] := by
      rw [hsnap_s]
    rcases htr2 with h2a | h2b
    · refine ⟨[Ev.auditCleanup] ++ evs ++
        [Ev.audit "restore_from_point", Ev.auditCleanup], ?_, by simp⟩
      rw [htr', h2a, htr3, htr1]
      simp [List.append_assoc]
    · refine ⟨[Ev.auditCleanup] ++ evs ++
        [Ev.notify, Ev.audit "restore_from_point", Ev.auditCleanup], ?_, by simp⟩
      rw [htr', h2b, htr3, htr1]
      simp [List.append_assoc]
  · intro s s1 pid opts v data e hc hs
    refine ⟨restoreBody_snapfail hc hs, ?_, ?_⟩
    · obtain ⟨e0, _, hb⟩ := createRP_err_elim hs
      exact (createRPBody_err_elim hb).2.2.1
    · obtain ⟨e0, _, hb⟩ := createRP_err_elim hs
      obtain ⟨_, ⟨evs, htr, hm⟩, _, _⟩ := createRPBody_err_elim hb
      intro ev hev
      rw [htr] at hev
      rcases List.mem_append.mp hev with hev | hev
      · exact Or.inl hev
      · exact Or.inr (hm ev hev)

/-- Witness for C5's amended theorem: part 1 at the successful tampered-store
restore, part 2 at the store whose safety snapshot fails partway. -/
theorem C5_amended_witness :
    (∃ s' rest, restoreFromPoint "rp1" defaultOptions trueValidator tamperedSt =
        RunResult.ok () s' ∧
      s'.trace = tamperedSt.trace ++
        [Ev.addPoint ("uuid-" ++ toString tamperedSt.nextId),
         Ev.addData ("uuid-" ++ toString tamperedSt.nextId),
         Ev.updatePointStatus ("uuid-" ++ toString tamperedSt.nextId) "completed",
         Ev.audit "create_recovery_point"] ++ rest ∧
      Ev.audit "restore_from_point" ∈ rest) ∧
    (∃ e s1, restoreFromPoint "rp1" defaultOptions trueValidator snapFaultSt =
      RunResult.err ("Failed to restore from recovery point: " ++ e) s1) := by
  constructor
  · have hok : (restoreFromPoint "rp1" defaultOptions trueValidator tamperedSt).isOk
        = true := by decide
    cases hr : restoreFromPoint "rp1" defaultOptions trueValidator tamperedSt with
    | err e s1 => rw [hr] at hok; exact absurd hok (by simp [RunResult.isOk])
    | ok u s1 =>
      cases u
      obtain ⟨rest, htr, hmem⟩ := C5_amended_safety_snapshot.1 tamperedSt s1 "rp1"
        defaultOptions trueValidator hr
      exact ⟨s1, rest, rfl, htr, hmem⟩
  · have hc : restoreChecks "rp1" defaultOptions trueValidator snapFaultSt.db =
        Except.ok (JVal.obj [("jobs", JVal.arr [JVal.obj [("id", JVal.num 2)]])]) := by
      rfl
    have hbad : (createRecoveryPoint autoSnapshotDescription "automatic" snapFaultSt).isOk
        = false := by decide
    cases hs : createRecoveryPoint autoSnapshotDescription "automatic" snapFaultSt with
    | ok p s1 => rw [hs] at hbad; exact absurd hbad (by simp [RunResult.isOk])
    | err e s1 =>
      exact ⟨e, s1, (C5_amended_safety_snapshot.2 snapFaultSt s1 "rp1" defaultOptions
        trueValidator _ e hc hs).1⟩

theorem restoreLoop_hasTable {data : JVal} {opts : RecoveryOptions} :
    ∀ {ts : List String} {s s' : St},
    restoreLoop data opts ts s = RunResult.ok () s' →
    ∀ u, hasTable s'.db u = hasTable s.db u := by
  intro ts
  induction ts with
  | nil =>
    intro s s' h u
    simp only [restoreLoop] at h
    obtain rfl := (RunResult.ok.inj h).2
    rfl
  | cons t rest ih =>
    intro s s' h u
    simp only [restoreLoop] at h
    split at h
    case isTrue => exact ih h u
    case isFalse =>
      split at h
      case isFalse => exact absurd h (by simp)
      case isTrue =>
        cases hp1 : prim (Ev.clearTable t) (fun db => setTable db t []) s with
        | err e1 s1 => rw [hp1] at h; exact absurd h (by simp)
        | ok v1 s1 =>
        rw [hp1] at h
        simp only at h
        have ht1 := prim_ok_elim hp1
        cases hg : getField data t with
        | none => rw [hg] at h; exact absurd h (by simp)
        | some v =>
        rw [hg] at h
        cases v with
        | null => exact absurd h (by simp)
        | bool b => exact absurd h (by simp)
        | num n => exact absurd h (by simp)
        | str s2 => exact absurd h (by simp)
        | date t2 => exact absurd h (by simp)
        | obj fs => exact absurd h (by simp)
        | arr recs =>
        simp only at h
        cases hp2 : prim (Ev.bulkAdd t recs.length)
            (fun db => setTable db t (getTable db t ++ recs)) s1 with
        | err e2 s2 => rw [hp2] at h; exact absurd h (by simp)
        | ok v2 s2 =>
        rw [hp2] at h
        simp only at h
        have ht2 := prim_ok_elim hp2
        rw [ih h u]
        subst ht1 ht2
        simp only [hasTable_setTable]

theorem getField_auditEntry_action (aid : String) (ts : Nat)
    (u a r : String) (d : JVal) (ip ua : String) :
    getField (mkAuditEntry aid ts u a r d ip ua) "action" = some (JVal.str a) := rfl

/-- C7 (amended): in a successful restore with `preserveAuditTrail: true` the
write-back never clears nor bulk-writes the audit-log collection, and every
other target collection ends up equal to the snapshot's records; but the
post-restore `auditLogs` content is not byte-identical to the pre-restore
content — it is the pre-restore content with the safety-snapshot and restore
audit events appended by the audit sink (each append followed by the sink's
retention pruning). -/
theorem C7_amended_preserve_audit_trail
    (s s' : St) (pid : String) (opts : RecoveryOptions)
    (v : String → JVal → Bool) (data : JVal)
    (hpres : opts.preserveAuditTrail = true)
    (hal : hasTable s.db "auditLogs" = true)
    (hc : restoreChecks pid opts v s.db = Except.ok data)
    (h : restoreFromPoint pid opts v s = RunResult.ok () s') :
    (∀ u ∈ restoreTargets opts data, u ≠ "auditLogs" →
      ∃ recs, getField data u = some (JVal.arr recs) ∧ getTable s'.db u = recs) ∧
    (∃ c1 c2 e1 e2,
      getField e1 "action" = some (JVal.str "create_recovery_point") ∧
      getField e2 "action" = some (JVal.str "restore_from_point") ∧
      getTable s'.db "auditLogs" =
        ((getTable s.db "auditLogs" ++ [e1]).filter (keepAfter c1) ++ [e2]).filter
          (keepAfter c2)) ∧
    (∀ ev ∈ s'.trace, ev ∈ s.trace ∨
      (ev ≠ Ev.clearTable "auditLogs" ∧ ∀ n, ev ≠ Ev.bulkAdd "auditLogs" n)) := by
  obtain ⟨data2, hc2, snap, s1, hs, s2, hp, ha⟩ :=
    restoreBody_ok_elim (restoreFromPoint_ok_elim h)
  rw [hc] at hc2
  obtain rfl : data = data2 := Except.ok.inj hc2
  obtain ⟨hsnap_p, hsnap_s⟩ := createRPBody_ok_elim (createRP_ok_elim hs)
  obtain ⟨s3, hs3, hdb2, _, _, _, htr2⟩ := performRestore_ok_elim hp
  obtain ⟨floopframe, floopfix, floopaudit, ⟨evs, htr3, hevm⟩, _, _, _⟩ :=
    restoreLoop_ok_spec hs3
  have ha2 := logAudit_ok_elim ha
  subst hsnap_s
  subst ha2
  have hal1 : hasTable
      ({ s with
        db := snapshotDbOf s "automatic" autoSnapshotDescription,
        trace := s.trace ++
          [Ev.addPoint ("uuid-" ++ toString s.nextId),
           Ev.addData ("uuid-" ++ toString s.nextId),
           Ev.updatePointStatus ("uuid-" ++ toString s.nextId) "completed",
           Ev.audit "create_recovery_point", Ev.auditCleanup],
        ctr := s.ctr + 5, nextId := s.nextId + 2, now := s.now + 3 } : St).db
      "auditLogs" = true := by
    show hasTable (snapshotDbOf s "automatic" autoSnapshotDescription) "auditLogs" = true
    rw [hasTable_snapshotDbOf]
    exact hal
  have hal3 : hasTable s3.db "auditLogs" = true := by
    rw [restoreLoop_hasTable hs3 "auditLogs"]
    exact hal1
  have hal2 : hasTable s2.db "auditLogs" = true := by
    rw [hdb2]
    exact hal3
  refine ⟨?_, ?_, ?_⟩
  · intro u hu hune
    have masku : ¬(opts.preserveAuditTrail = true ∧ u = "auditLogs") :=
      fun hx => hune hx.2
    obtain ⟨recs, hg, hset⟩ := floopfix u hu masku
    refine ⟨recs, hg, ?_⟩
    show getTable (cleanupOldAuditLogs (addRecord s2.db "auditLogs" _) _) u = recs
    rw [getTable_cleanup_ne _ _ _ hune, getTable_addRecord_ne _ _ _ _ hune, hdb2]
    exact hset
  · refine ⟨(s.now + 2) - retentionMs, (s2.now + 1) - retentionMs,
      mkAuditEntry ("uuid-" ++ toString (s.nextId + 1)) (s.now + 1) "system"
        "create_recovery_point" "recovery"
        (createAuditDetails ("uuid-" ++ toString s.nextId) "automatic"
          autoSnapshotDescription) "internal" "system",
      mkAuditEntry ("uuid-" ++ toString s2.nextId) s2.now "system"
        "restore_from_point" "recovery"
        (JVal.obj [("recoveryPointId", JVal.str pid), ("options", optionsJ opts),
          ("preRestoreSnapshotId", (getField snap "id").getD JVal.null)])
        "internal" "system",
      rfl, rfl, ?_⟩
    show getTable (cleanupOldAuditLogs (addRecord s2.db "auditLogs" _) _) "auditLogs" = _
    rw [getTable_cleanup_self _ _ (by rw [hasTable_addRecord]; exact hal2),
        getTable_addRecord_self _ _ _ hal2]
    have hs2al : getTable s2.db "auditLogs" =
        (getTable s.db "auditLogs" ++
          [mkAuditEntry ("uuid-" ++ toString (s.nextId + 1)) (s.now + 1) "system"
            "create_recovery_point" "recovery"
            (createAuditDetails ("uuid-" ++ toString s.nextId) "automatic"
              autoSnapshotDescription) "internal" "system"]).filter
          (keepAfter ((s.now + 2) - retentionMs)) := by
      rw [hdb2, floopaudit hpres]
      show getTable (snapshotDbOf s "automatic" autoSnapshotDescription) "auditLogs" = _
      unfold snapshotDbOf
      rw [getTable_cleanup_self _ _
            (by rw [hasTable_addRecord, hasTable_updatePointStatusDb,
                hasTable_addRecord, hasTable_addRecord]; exact hal),
          getTable_addRecord_self _ _ _
            (by rw [hasTable_updatePointStatusDb, hasTable_addRecord,
                hasTable_addRecord]; exact hal),
          getTable_updatePointStatusDb_ne _ _ _ _ (by decide),
          getTable_addRecord_ne _ _ _ _ (by decide),
          getTable_addRecord_ne _ _ _ _ (by decide)]
    rw [hs2al]
  · have hnotaudit : ∀ (t2 : String), t2 ≠ "auditLogs" → ∀ (ev : Ev),
        (ev = Ev.clearTable t2 ∨ ∃ n, ev = Ev.bulkAdd t2 n) →
        ev ≠ Ev.clearTable "auditLogs" ∧ ∀ n, ev ≠ Ev.bulkAdd "auditLogs" n := by
      intro t2 ht2 ev hx
      rcases hx with rfl | ⟨n, rfl⟩
      · exact ⟨by simp [ht2], fun n => by simp⟩
      · exact ⟨by simp, fun n2 => by simp [ht2]⟩
    intro ev hev
    have hev2 : ev ∈ s2.trace ++
        [Ev.audit "restore_from_point", Ev.auditCleanup] := hev
    rcases List.mem_append.mp hev2 with hev3 | hev3
    · have hev4 : ev ∈ s3.trace ∨ ev = Ev.notify := by
        rcases htr2 with h2a | h2b
        · exact Or.inl (h2a ▸ hev3)
        · rw [h2b] at hev3
          rcases List.mem_append.mp hev3 with hx | hx
          · exact Or.inl hx
          · exact Or.inr (List.mem_singleton.mp hx)
      rcases hev4 with hev5 | rfl
      · rw [htr3] at hev5
        rcases List.mem_append.mp hev5 with hev6 | hev6
        · have hev7 : ev ∈ s.trace ++
              [Ev.addPoint ("uuid-" ++ toString s.nextId),
               Ev.addData ("uuid-" ++ toString s.nextId),
               Ev.updatePointStatus ("uuid-" ++ toString s.nextId) "completed",
               Ev.audit "create_recovery_point", Ev.auditCleanup] := hev6
          rcases List.mem_append.mp hev7 with hx | hx
          · exact Or.inl hx
          · right
            simp only [List.mem_cons, List.mem_singleton, List.not_mem_nil,
              or_false] at hx
            rcases hx with rfl | rfl | rfl | rfl | rfl
            · exact ⟨by simp, fun n => by simp⟩
            · exact ⟨by simp, fun n => by simp⟩
            · exact ⟨by simp, fun n => by simp⟩
            · exact ⟨by simp, fun n => by simp⟩
            · exact ⟨by simp, fun n => by simp⟩
        · obtain ⟨t2, _, hmask2, hshape⟩ := hevm ev hev6
          have ht2 : t2 ≠ "auditLogs" := fun he => hmask2 ⟨hpres, he⟩
          exact Or.inr (hnotaudit t2 ht2 ev hshape)
      · exact Or.inr ⟨by simp, fun n => by simp⟩
    · simp only [List.mem_cons, List.mem_singleton, List.not_mem_nil,
        or_false] at hev3
      rcases hev3 with rfl | rfl
      · exact Or.inr ⟨by simp, fun n => by simp⟩
      · exact Or.inr ⟨by simp, fun n => by simp⟩

/-- Witness for C7's amended theorem at the preserve-audit-trail fixture. -/
theorem C7_amended_witness :
    ∃ s', restoreFromPoint "rp1" preserveOpts trueValidator preserveSt =
        RunResult.ok () s' ∧
      (∃ recs, getField c7payload "jobs" = some (JVal.arr recs) ∧
        getTable s'.db "jobs" = recs) ∧
      (∃ c1 c2 e1 e2,
        getField e1 "action" = some (JVal.str "create_recovery_point") ∧
        getField e2 "action" = some (JVal.str "restore_from_point") ∧
        getTable s'.db "auditLogs" =
          ((getTable preserveSt.db "auditLogs" ++ [e1]).filter (keepAfter c1) ++
            [e2]).filter (keepAfter c2)) := by
  have hok : (restoreFromPoint "rp1" preserveOpts trueValidator preserveSt).isOk
      = true := by decide
  cases hr : restoreFromPoint "rp1" preserveOpts trueValidator preserveSt with
  | err e s1 => rw [hr] at hok; exact absurd hok (by simp [RunResult.isOk])
  | ok u s1 =>
    cases u
    have hthm := C7_amended_preserve_audit_trail preserveSt s1 "rp1" preserveOpts
      trueValidator c7payload rfl (by decide) (by rfl) hr
    exact ⟨s1, rfl, hthm.1 "jobs" (by decide) (by decide), hthm.2.1⟩

/-- C8 (amended): in a successful selective restore (`options.collections`
given, audit trail not preserved) the write-back clears and bulk-inserts only
listed collections; every collection outside the subset other than the
catalog's own `recoveryPoints`/`recoveryData` (which receive the safety
snapshot) and the audit log (which receives the audit events) retains its
pre-restore content, and every listed collection other than the audit log
ends up equal to the snapshot's records for it. -/
theorem C8_amended_selective_restore
    (s s' : St) (pid : String) (listed : List String)
    (v : String → JVal → Bool) (data : JVal) (opts : RecoveryOptions)
    (hopts : opts.tables = some listed)
    (hpres : opts.preserveAuditTrail = false)
    (hc : restoreChecks pid opts v s.db = Except.ok data)
    (h : restoreFromPoint pid opts v s = RunResult.ok () s') :
    (∀ u, u ∉ listed → u ≠ "recoveryPoints" → u ≠ "recoveryData" →
      u ≠ "auditLogs" → getTable s'.db u = getTable s.db u) ∧
    (∀ u ∈ listed, u ≠ "auditLogs" →
      ∃ recs, getField data u = some (JVal.arr recs) ∧ getTable s'.db u = recs) ∧
    (∀ ev ∈ s'.trace, ev ∈ s.trace ∨
      (∃ t, t ∈ listed ∧ (ev = Ev.clearTable t ∨ ∃ n, ev = Ev.bulkAdd t n)) ∨
      ((∀ t, ev ≠ Ev.clearTable t) ∧ ∀ t n, ev ≠ Ev.bulkAdd t n)) := by
  obtain ⟨data2, hc2, snap, s1, hs, s2, hp, ha⟩ :=
    restoreBody_ok_elim (restoreFromPoint_ok_elim h)
  rw [hc] at hc2
  obtain rfl : data = data2 := Except.ok.inj hc2
  obtain ⟨hsnap_p, hsnap_s⟩ := createRPBody_ok_elim (createRP_ok_elim hs)
  obtain ⟨s3, hs3, hdb2, _, _, _, htr2⟩ := performRestore_ok_elim hp
  have htargets : restoreTargets opts data = listed := by
    unfold restoreTargets
    rw [hopts]
  rw [htargets] at hs3
  obtain ⟨floopframe, floopfix, _, ⟨evs, htr3, hevm⟩, _, _, _⟩ :=
    restoreLoop_ok_spec hs3
  have ha2 := logAudit_ok_elim ha
  subst hsnap_s
  subst ha2
  refine ⟨?_, ?_, ?_⟩
  · intro u hu h1 h2 h3
    show getTable (cleanupOldAuditLogs (addRecord s2.db "auditLogs" _) _) u =
      getTable s.db u
    rw [getTable_cleanup_ne _ _ _ h3, getTable_addRecord_ne _ _ _ _ h3, hdb2,
        floopframe u hu]
    show getTable (snapshotDbOf s "automatic" autoSnapshotDescription) u =
      getTable s.db u
    exact getTable_snapshotDbOf_ne s _ _ u h1 h2 h3
  · intro u hu hune
    have masku : ¬(opts.preserveAuditTrail = true ∧ u = "auditLogs") := by
      rw [hpres]
      simp
    obtain ⟨recs, hg, hset⟩ := floopfix u hu masku
    refine ⟨recs, hg, ?_⟩
    show getTable (cleanupOldAuditLogs (addRecord s2.db "auditLogs" _) _) u = recs
    rw [getTable_cleanup_ne _ _ _ hune, getTable_addRecord_ne _ _ _ _ hune, hdb2]
    exact hset
  · intro ev hev
    have hev2 : ev ∈ s2.trace ++
        [Ev.audit "restore_from_point", Ev.auditCleanup] := hev
    rcases List.mem_append.mp hev2 with hev3 | hev3
    · have hev4 : ev ∈ s3.trace ∨ ev = Ev.notify := by
        rcases htr2 with h2a | h2b
        · exact Or.inl (h2a ▸ hev3)
        · rw [h2b] at hev3
          rcases List.mem_append.mp hev3 with hx | hx
          · exact Or.inl hx
          · exact Or.inr (List.mem_singleton.mp hx)
      rcases hev4 with hev5 | rfl
      · rw [htr3] at hev5
        rcases List.mem_append.mp hev5 with hev6 | hev6
        · have hev7 : ev ∈ s.trace ++
              [Ev.addPoint ("uuid-" ++ toString s.nextId),
               Ev.addData ("uuid-" ++ toString s.nextId),
               Ev.updatePointStatus ("uuid-" ++ toString s.nextId) "completed",
               Ev.audit "create_recovery_point", Ev.auditCleanup] := hev6
          rcases List.mem_append.mp hev7 with hx | hx
          · exact Or.inl hx
          · right; right
            simp only [List.mem_cons, List.mem_singleton, List.not_mem_nil,
              or_false] at hx
            rcases hx with rfl | rfl | rfl | rfl | rfl <;>
              exact ⟨fun t => by simp, fun t n => by simp⟩
        · obtain ⟨t2, ht2, _, hshape⟩ := hevm ev hev6
          exact Or.inr (Or.inl ⟨t2, ht2, hshape⟩)
      · exact Or.inr (Or.inr ⟨fun t => by simp, fun t n => by simp⟩)
    · simp only [List.mem_cons, List.mem_singleton, List.not_mem_nil,
        or_false] at hev3
      rcases hev3 with rfl | rfl
      · exact Or.inr (Or.inr ⟨fun t => by simp, fun t n => by simp⟩)
      · exact Or.inr (Or.inr ⟨fun t => by simp, fun t n => by simp⟩)

/-- Witness for C8's amended theorem at the selective-restore fixture. -/
theorem C8_amended_witness :
    ∃ s', restoreFromPoint "rp1" selectiveOpts trueValidator selectiveSt =
        RunResult.ok () s' ∧
      getTable s'.db "candidates" = getTable selectiveSt.db "candidates" ∧
      (∃ recs, getField
          (JVal.obj [("candidates",
            JVal.arr [JVal.obj [("id", JVal.num 1)], JVal.obj [("id", JVal.num 2)]]),
            ("jobs", JVal.arr [JVal.obj [("id", JVal.num 11)]])]) "jobs" =
          some (JVal.arr recs) ∧
        getTable s'.db "jobs" = recs) := by
  have hok : (restoreFromPoint "rp1" selectiveOpts trueValidator selectiveSt).isOk
      = true := by decide
  cases hr : restoreFromPoint "rp1" selectiveOpts trueValidator selectiveSt with
  | err e s1 => rw [hr] at hok; exact absurd hok (by simp [RunResult.isOk])
  | ok u s1 =>
    cases u
    have hthm := C8_amended_selective_restore selectiveSt s1 "rp1" ["jobs"]
      trueValidator
      (JVal.obj [("candidates",
        JVal.arr [JVal.obj [("id", JVal.num 1)], JVal.obj [("id", JVal.num 2)]]),
        ("jobs", JVal.arr [JVal.obj [("id", JVal.num 11)]])])
      selectiveOpts rfl rfl (by rfl) hr
    exact ⟨s1, rfl,
      hthm.1 "candidates" (by decide) (by decide) (by decide) (by decide),
      hthm.2.1 "jobs" (by decide) (by decide)⟩

theorem mem_addBackup {db : DB} {ts : Nat} {st : String} {nid : Int} (q : JVal)
    (hq : q ∈ getTable (addRecord db "recoveryPoints" (backupPoint ts st nid))
      "recoveryPoints") :
    q ∈ getTable db "recoveryPoints" ∨
      getField q "type" = some (JVal.str "full") := by
  by_cases ht : hasTable db "recoveryPoints" = true
  · rw [getTable_addRecord_self db _ _ ht] at hq
    rcases List.mem_append.mp hq with hx | hx
    · exact Or.inl hx
    · obtain rfl := List.mem_singleton.mp hx
      exact Or.inr rfl
  · rw [addRecord_absent db _ _ (by simpa using ht)] at hq
    exact Or.inl hq

/-- C9 (amended): the manager's snapshot creation stamps the point with its
`type` argument — `"manual"` by default (`createSnapshot`) and `"automatic"`
for the pre-restore safety snapshot — never `"full"`; the schema-level
`RecruitmentDatabase.createRecoveryPoint` and `RecruitmentDatabase.backup`
operations always produce `type: "full"`.  No operation ever produces
`"incremental"`. -/
theorem C9_amended_kinds :
    (∀ (desc ty : String) (s : St) (p : JVal) (s' : St),
      createRecoveryPoint desc ty s = RunResult.ok p s' →
      getField p "type" = some (JVal.str ty)) ∧
    (∀ (desc : String) (s : St),
      createSnapshot desc s = createRecoveryPoint desc "manual" s) ∧
    (∀ (s : St) (p : JVal) (s' : St),
      schemaCreateRecoveryPoint s = RunResult.ok p s' →
      getField p "type" = some (JVal.str "full")) ∧
    (∀ (s : St) (q : JVal),
      q ∈ getTable (RunResult.stateOf (schemaBackup s)).db "recoveryPoints" →
      q ∈ getTable s.db "recoveryPoints" ∨
      getField q "type" = some (JVal.str "full")) := by
  refine ⟨?_, fun desc s => rfl, ?_, ?_⟩
  · intro desc ty s p s' h
    obtain ⟨rfl, _⟩ := createRPBody_ok_elim (createRP_ok_elim h)
    rfl
  · intro s p s' h
    by_cases h1 : s.faults.contains s.ctr = true
    · simp only [schemaCreateRecoveryPoint, freshDate, prim, h1, if_true] at h
      exact absurd h (by simp)
    · simp only [Bool.not_eq_true] at h1
      simp only [schemaCreateRecoveryPoint, freshDate, prim, h1,
        Bool.false_eq_true, if_false] at h
      obtain ⟨rfl, _⟩ := RunResult.ok.inj h
      rfl
  · intro s q hq
    by_cases h1 : s.faults.contains s.ctr = true
    · by_cases h2 : s.faults.contains (s.ctr + 1) = true
      · simp only [schemaBackup, freshDate, prim, h1, h2, if_true,
          RunResult.stateOf] at hq
        exact Or.inl hq
      · simp only [Bool.not_eq_true] at h2
        simp only [schemaBackup, freshDate, prim, h1, h2, if_true,
          Bool.false_eq_true, if_false, RunResult.stateOf] at hq
        exact mem_addBackup q hq
    · simp only [Bool.not_eq_true] at h1
      simp only [schemaBackup, freshDate, prim, h1, Bool.false_eq_true,
        if_false, RunResult.stateOf] at hq
      exact mem_addBackup q hq

/-- Witness for C9's amended theorem at concrete runs. -/
theorem C9_amended_witness :
    (∃ p s', createRecoveryPoint "w" "manual" plainSt = RunResult.ok p s' ∧
      getField p "type" = some (JVal.str "manual")) ∧
    createSnapshot "w" plainSt = createRecoveryPoint "w" "manual" plainSt ∧
    (∃ p s', schemaCreateRecoveryPoint plainSt = RunResult.ok p s' ∧
      getField p "type" = some (JVal.str "full")) ∧
    (backupPoint 10 "completed" 1 ∈ getTable plainSt.db "recoveryPoints" ∨
      getField (backupPoint 10 "completed" 1) "type" = some (JVal.str "full")) := by
  refine ⟨?_, C9_amended_kinds.2.1 "w" plainSt, ?_, ?_⟩
  · have hok : (createRecoveryPoint "w" "manual" plainSt).isOk = true := by decide
    cases hr : createRecoveryPoint "w" "manual" plainSt with
    | err e s1 => rw [hr] at hok; exact absurd hok (by simp [RunResult.isOk])
    | ok p s1 =>
      exact ⟨p, s1, rfl, C9_amended_kinds.1 "w" "manual" plainSt p s1 hr⟩
  · have hok : (schemaCreateRecoveryPoint plainSt).isOk = true := by decide
    cases hr : schemaCreateRecoveryPoint plainSt with
    | err e s1 => rw [hr] at hok; exact absurd hok (by simp [RunResult.isOk])
    | ok p s1 =>
      exact ⟨p, s1, rfl, C9_amended_kinds.2.2.1 plainSt p s1 hr⟩
  · exact C9_amended_kinds.2.2.2 plainSt (backupPoint 10 "completed" 1) (by decide)

theorem objKeys_exportData (db : DB) (tabs : List String) :
    objKeys (exportData db tabs) = tabs := by
  unfold exportData objKeys
  simp only
  rw [List.map_map]
  have h : (Prod.fst ∘ fun t => (t, JVal.arr (getTable db t))) = id :=
    funext fun t => rfl
  rw [h, List.map_id]

/-- C10: snapshot creation enumerates the store's declared tables — which,
for a store instantiating the `RecruitmentDatabase` schema, include the
recovery catalog's own `recoveryPoints` and `recoveryData` collections.  The
created point's `metadata.tables`, the payload's keys, and the default target
set of a subsequent full restore (`options.collections` absent) therefore all
contain the catalog collections: the snapshot contains, and a default restore
clears and overwrites, the catalog itself. -/
theorem C10_snapshot_includes_catalog (s : St) (desc : String)
    (hschema : getAllTables s.db = schemaTableNames)
    (hf : s.faults = []) :
    ∃ s', createSnapshot desc s = RunResult.ok (newPointOf s "manual" desc) s' ∧
    "recoveryPoints" ∈ getAllTables s.db ∧
    "recoveryData" ∈ getAllTables s.db ∧
    (∃ md, getField (newPointOf s "manual" desc) "metadata" = some md ∧
      getField md "tables" =
        some (JVal.arr ((getAllTables s.db).map JVal.str)) ∧
      JVal.str "recoveryPoints" ∈ (getAllTables s.db).map JVal.str ∧
      JVal.str "recoveryData" ∈ (getAllTables s.db).map JVal.str) ∧
    objKeys (exportData s.db (getAllTables s.db)) = getAllTables s.db ∧
    (∀ d : JVal, restoreTargets defaultOptions d = objKeys d) ∧
    "recoveryPoints" ∈
      restoreTargets defaultOptions (exportData s.db (getAllTables s.db)) ∧
    "recoveryData" ∈
      restoreTargets defaultOptions (exportData s.db (getAllTables s.db)) := by
  refine ⟨_, createRP_nofault desc "manual" s hf, ?_, ?_, ⟨_, rfl, rfl, ?_, ?_⟩,
    objKeys_exportData s.db (getAllTables s.db), fun d => rfl, ?_, ?_⟩
  · rw [hschema]; decide
  · rw [hschema]; decide
  · rw [hschema]; decide
  · rw [hschema]; decide
  · show "recoveryPoints" ∈ objKeys (exportData s.db (getAllTables s.db))
    rw [objKeys_exportData, hschema]; decide
  · show "recoveryData" ∈ objKeys (exportData s.db (getAllTables s.db))
    rw [objKeys_exportData, hschema]; decide

/-- Witness for C10 at a store instantiating the schema's table list. -/
theorem C10_witness :
    ∃ s', createSnapshot "nightly" schemaSt =
        RunResult.ok (newPointOf schemaSt "manual" "nightly") s' ∧
    "recoveryPoints" ∈ getAllTables schemaSt.db ∧
    "recoveryData" ∈ getAllTables schemaSt.db ∧
    (∃ md, getField (newPointOf schemaSt "manual" "nightly") "metadata" = some md ∧
      getField md "tables" =
        some (JVal.arr ((getAllTables schemaSt.db).map JVal.str)) ∧
      JVal.str "recoveryPoints" ∈ (getAllTables schemaSt.db).map JVal.str ∧
      JVal.str "recoveryData" ∈ (getAllTables schemaSt.db).map JVal.str) ∧
    objKeys (exportData schemaSt.db (getAllTables schemaSt.db)) =
      getAllTables schemaSt.db ∧
    (∀ d : JVal, restoreTargets defaultOptions d = objKeys d) ∧
    "recoveryPoints" ∈ restoreTargets defaultOptions
      (exportData schemaSt.db (getAllTables schemaSt.db)) ∧
    "recoveryData" ∈ restoreTargets defaultOptions
      (exportData schemaSt.db (getAllTables schemaSt.db)) :=
  C10_snapshot_includes_catalog schemaSt "nightly" (by decide) rfl
